import Mathlib

/-!
Shallow embedding of the Alibi multiplayer game server: the WebSocket
server class `AlibiServer` (the repository's core room/phase/scoring
engine), together with the crime catalog `CRIMES` of `src/crimes.ts`.

Modelling conventions:
* JavaScript `Map`s are insertion-ordered association lists
  (`List (String × _)`) with `mapGet`/`mapSet` mirroring
  `Map.get`/`Map.set`.
* `Math.random()` draws are passed in as explicit parameters; the
  draw `Math.floor(Math.random() * n)`, whose value ranges over
  `[0, n)`, is modelled by `i % n` for an abstract `i : Nat`.
* `setTimeout`/`clearTimeout` are modelled by a `TimerSys` that
  allocates fresh timer ids and tracks the list of currently armed
  ids; `clearTimeout` removes an id from the armed list.
* an operation returns the list of messages it emits; resolving a
  player id to a live connection is not modelled (the server silently
  skips the send when the connection is gone, with no state change),
  so a emitted message records its intended recipient where the
  payload is personalized.
* `Date.now()` is passed in as an explicit `now : Nat`.
-/

namespace Alibi

/-- JS `Map.get`: the value of the first entry with the given key. -/
def mapGet {α : Type} (m : List (String × α)) (k : String) : Option α :=
  (m.find? (fun e => e.1 == k)).map Prod.snd

/-- JS `Map.has`. -/
def containsKey {α : Type} (m : List (String × α)) (k : String) : Bool :=
  m.any (fun e => e.1 == k)

/-- JS `Map.set`: update the entry in place when the key is present,
append a new entry otherwise (insertion order preserved). -/
def mapSet {α : Type} (m : List (String × α)) (k : String) (v : α) :
    List (String × α) :=
  if m.any (fun e => e.1 == k) then
    m.map (fun e => if e.1 == k then (k, v) else e)
  else m ++ [(k, v)]

/-- The game phases of the server (`PHASE_DURATIONS` keys plus
`WAITING`). -/
inductive GamePhase where
  | WAITING
  | SETUP
  | ALIBI_CONSTRUCTION
  | INTERROGATION
  | ACCUSATIONS
  | RESULTS
deriving DecidableEq, Repr, BEq

/-- One evidence item of a crime (`{id, description, revealTime}`). -/
structure Evidence where
  id : String
  description : String
  revealTime : Nat
deriving DecidableEq, Repr

/-- A crime scenario. -/
structure Crime where
  id : String
  title : String
  description : String
  location : String
  time : String
  evidence : List Evidence
deriving DecidableEq, Repr

/-- A player record as created by `joinRoom`. -/
structure Player where
  id : String
  name : String
  color : String
  avatar : String
  score : Nat
  isGuilty : Bool
deriving DecidableEq, Repr

/-- A question asked during interrogation. -/
structure Question where
  id : String
  «from» : String
  «to» : String
  question : String
  answer : Option String
  timestamp : Nat
deriving DecidableEq, Repr

/-- A vote `{suspectId, confidence}`. -/
structure Vote where
  suspectId : String
  confidence : Nat
deriving DecidableEq, Repr

/-- The `results` object built by `calculateResults`. -/
structure RResults where
  guiltyPlayerId : Option String
  votes : List (String × Vote)
  scores : List (String × Nat)
deriving DecidableEq, Repr

/-- `room.gameState`. -/
structure GameState where
  phase : GamePhase
  crime : Option Crime
  guiltyPlayerId : Option String
  alibis : List (String × String)
  questions : List Question
  votes : List (String × Vote)
  currentEvidence : List Evidence
  phaseStartTime : Option Nat
  roundNumber : Nat
  results : Option RResults
deriving DecidableEq, Repr

/-- `room.timers`: the timer handles held by a room. -/
structure RoomTimers where
  phaseTimer : Option Nat
  evidenceTimers : List Nat
deriving DecidableEq, Repr

/-- A room aggregate. -/
structure Room where
  code : String
  host : String
  players : List (String × Player)
  gameState : GameState
  timers : RoomTimers
deriving DecidableEq, Repr

/-- The timer service: `armed` is the list of currently armed timer
ids, `nextId` the next fresh id `setTimeout` hands out. -/
structure TimerSys where
  armed : List Nat
  nextId : Nat
deriving DecidableEq, Repr

/-- `setTimeout`: arm a fresh timer, returning its id. -/
def setT (s : TimerSys) : Nat × TimerSys :=
  (s.nextId, { armed := s.armed ++ [s.nextId], nextId := s.nextId + 1 })

/-- `clearTimeout`: disarm the given timer id. -/
def clearT (s : TimerSys) (t : Nat) : TimerSys :=
  { s with armed := s.armed.filter (fun x => x != t) }

/-- The `crime` field of a personalized game-state snapshot: either the
room's full (possibly null) crime, or the redacted
`{location, time, hidden: true}` object shown to the guilty player. -/
inductive CrimeField where
  | full (c : Option Crime)
  | redacted (location : Option String) (time : Option String)
deriving DecidableEq, Repr

/-- The personalized snapshot built by `getPublicGameState`. -/
structure PublicGameState where
  phase : GamePhase
  phaseStartTime : Option Nat
  crime : CrimeField
  isGuilty : Bool
  players : List Player
  alibis : List (String × String)
  questions : List Question
  currentEvidence : List Evidence
  results : Option RResults
deriving DecidableEq, Repr

/-- Messages the server emits (the payload-relevant parts). A
`PHASE_CHANGE` records the recipient player id because its payload is
personalized. -/
inductive Msg where
  | ROOM_CREATED (roomCode : String)
  | PLAYER_JOINED (player : Player) (playerCount : Nat)
  | ROOM_JOINED (roomCode : String) (players : List Player)
      (gameState : PublicGameState)
  | PHASE_CHANGE (recipient : String) (state : PublicGameState)
  | ALIBI_SUBMITTED (playerId : String)
  | NEW_QUESTION (q : Question)
  | QUESTION_ANSWERED (questionId answer : String)
  | EVIDENCE_REVEALED (evidence : Evidence)
  | VOTE_SUBMITTED (playerId : String)
  | PLAYER_LEFT (playerId : String) (playerCount : Nat)
  | ERROR (message : String)
deriving DecidableEq, Repr

/-- Result of a state-machine step: the updated room, the updated
timer system, the messages emitted, and an instrumentation flag
recording whether `calculateResults` was invoked during the step. -/
structure StepOut where
  room : Room
  sys : TimerSys
  msgs : List Msg
  scored : Bool
deriving DecidableEq, Repr

/-- `PHASE_DURATIONS` of the server (`undefined`, i.e. `none`, for
`WAITING`). -/
def PHASE_DURATIONS : GamePhase → Option Nat
  | .WAITING => none
  | .SETUP => some 5000
  | .ALIBI_CONSTRUCTION => some 30000
  | .INTERROGATION => some 30000
  | .ACCUSATIONS => some 20000
  | .RESULTS => some 10000

/-- The fixed `phaseSequence` of `advancePhase`. -/
def phaseSequence : List GamePhase :=
  [.SETUP, .ALIBI_CONSTRUCTION, .INTERROGATION, .ACCUSATIONS, .RESULTS]

/-- JS `Array.indexOf`, as an `Option Nat` (`none` for `-1`). -/
def jsIndexOf (x : GamePhase) : List GamePhase → Option Nat
  | [] => none
  | p :: ps => if p == x then some 0 else (jsIndexOf x ps).map (· + 1)

/-- The linear phase order the server implements: successor of each
phase under `advancePhase` (spec-side helper for stating claims). -/
def jsNextPhase : GamePhase → GamePhase
  | .WAITING => .WAITING
  | .SETUP => .ALIBI_CONSTRUCTION
  | .ALIBI_CONSTRUCTION => .INTERROGATION
  | .INTERROGATION => .ACCUSATIONS
  | .ACCUSATIONS => .RESULTS
  | .RESULTS => .WAITING

/-- The server's inline crime catalog (`getCrimes` in the server). -/
def getCrimes : List Crime :=
  [ { id := "museum_heist", title := "Art Theft",
      description := "A valuable sculpture was stolen from the Meridian Museum at 9:47 PM.",
      location := "Meridian Museum", time := "9:47 PM",
      evidence :=
        [ { id := "tattoo", description := "The thief had a tattoo on their left hand.", revealTime := 10 },
          { id := "shoes", description := "Muddy size 10 boot prints were found.", revealTime := 20 } ] },
    { id := "corporate_espionage", title := "Data Breach",
      description := "Files were stolen from TechCorp HQ at 11:23 PM.",
      location := "TechCorp HQ", time := "11:23 PM",
      evidence :=
        [ { id := "coffee", description := "A coffee cup with lipstick was found.", revealTime := 10 },
          { id := "parking", description := "A car with tinted windows was seen.", revealTime := 20 } ] },
    { id := "jewelry_theft", title := "Diamond Heist",
      description := "Diamonds worth $50K stolen from Luxe Jewelers at 8:15 PM.",
      location := "Luxe Jewelers", time := "8:15 PM",
      evidence :=
        [ { id := "gloves", description := "A latex glove was found at the scene.", revealTime := 10 },
          { id := "witness", description := "Someone in a red jacket was seen nearby.", revealTime := 20 } ] } ]

/-- The crime catalog `CRIMES` of `src/crimes.ts`. -/
def CRIMES : List Crime :=
  [ { id := "museum_heist", title := "Art Theft",
      description := "A valuable sculpture was stolen from the Meridian Museum at 9:47 PM.",
      location := "Meridian Museum", time := "9:47 PM",
      evidence :=
        [ { id := "tattoo", description := "The thief had a tattoo on their left hand.", revealTime := 10 },
          { id := "shoes", description := "Muddy size 10 boot prints were found.", revealTime := 20 } ] },
    { id := "corporate_espionage", title := "Data Breach",
      description := "Files were stolen from TechCorp HQ at 11:23 PM.",
      location := "TechCorp HQ", time := "11:23 PM",
      evidence :=
        [ { id := "coffee", description := "A coffee cup with lipstick was found.", revealTime := 10 },
          { id := "parking", description := "A car with tinted windows was seen.", revealTime := 20 } ] },
    { id := "jewelry_theft", title := "Diamond Heist",
      description := "Diamonds worth $50K stolen from Luxe Jewelers at 8:15 PM.",
      location := "Luxe Jewelers", time := "8:15 PM",
      evidence :=
        [ { id := "gloves", description := "A latex glove was found at the scene.", revealTime := 10 },
          { id := "witness", description := "Someone in a red jacket was seen nearby.", revealTime := 20 } ] },
    { id := "vandalism", title := "City Hall Vandalism",
      description := "Graffiti was spray-painted on City Hall at 2:30 AM.",
      location := "City Hall", time := "2:30 AM",
      evidence :=
        [ { id := "paint", description := "Blue paint stains led away from the scene.", revealTime := 10 },
          { id := "camera", description := "Someone on a bicycle was seen fleeing.", revealTime := 20 } ] },
    { id := "restaurant_poisoning", title := "Restaurant Sabotage",
      description := "Food at Bella Cucina was contaminated at 6:45 PM.",
      location := "Bella Cucina", time := "6:45 PM",
      evidence :=
        [ { id := "kitchen", description := "An unauthorized person was in the kitchen.", revealTime := 10 },
          { id := "bottle", description := "An empty cleaning bottle was found.", revealTime := 20 } ] } ]

/-- The fixed color palette of `joinRoom`. -/
def COLORS : List String :=
  ["#E63946", "#457B9D", "#2A9D8F", "#E9C46A", "#F4A261", "#9D4EDD",
   "#06FFA5", "#FF006E"]

/-- The fixed avatar palette of `joinRoom`. -/
def AVATARS : List String :=
  ["detective", "businessman", "artist", "scientist", "chef", "athlete",
   "musician", "teacher"]

/-- `getPublicGameState(room, playerId)`: the personalized snapshot.
The guilty recipient sees the redacted crime
`{location: crime?.location, time: crime?.time, hidden: true}`. -/
def getPublicGameState (room : Room) (playerId : String) : PublicGameState :=
  let isGuilty := room.gameState.guiltyPlayerId = some playerId
  { phase := room.gameState.phase,
    phaseStartTime := room.gameState.phaseStartTime,
    crime :=
      if isGuilty then
        CrimeField.redacted (room.gameState.crime.map Crime.location)
          (room.gameState.crime.map Crime.time)
      else CrimeField.full room.gameState.crime,
    isGuilty := decide isGuilty,
    players := room.players.map Prod.snd,
    alibis := room.gameState.alibis,
    questions := room.gameState.questions,
    currentEvidence := room.gameState.currentEvidence,
    results := room.gameState.results }

/-- `broadcastPhaseUpdate`: one personalized `PHASE_CHANGE` per room
member. -/
def broadcastPhaseUpdate (room : Room) : List Msg :=
  room.players.map (fun e => Msg.PHASE_CHANGE e.1 (getPublicGameState room e.1))

/-- The evidence-reveal scheduling loop of `startPhase`: arm one timer
per evidence item, pushing each handle onto `evidenceTimers`. -/
def armEvidence (room : Room) (sys : TimerSys) (evs : List Evidence) :
    Room × TimerSys :=
  evs.foldl
    (fun rs _ =>
      let ts := setT rs.2
      ({ rs.1 with
          timers :=
            { rs.1.timers with
                evidenceTimers := rs.1.timers.evidenceTimers ++ [ts.1] } },
        ts.2))
    (room, sys)

/-- The timer-cancellation prologue of `startPhase`:
`if (room.timers.phaseTimer) clearTimeout(...)` followed by
`room.timers.evidenceTimers.forEach(clearTimeout)`. -/
def clearedSys (room : Room) (sys : TimerSys) : TimerSys :=
  room.timers.evidenceTimers.foldl clearT
    (match room.timers.phaseTimer with
     | some t => clearT sys t
     | none => sys)

/-- The `if (duration) { room.timers.phaseTimer = setTimeout(...) }`
stage of `startPhase` (JS truthiness: `undefined` and `0` skip). -/
def armPhaseTimer (room : Room) (duration : Option Nat) (sys : TimerSys) :
    Room × TimerSys :=
  match duration with
  | some d =>
      if d ≠ 0 then
        let ts := setT sys
        ({ room with timers := { room.timers with phaseTimer := some ts.1 } },
          ts.2)
      else (room, sys)
  | none => (room, sys)

/-- The evidence-scheduling stage of `startPhase`: during
`INTERROGATION` with a crime present, arm one timer per evidence
item. -/
def armEvidenceStage (phase : GamePhase) (rs : Room × TimerSys) :
    Room × TimerSys :=
  if phase = GamePhase.INTERROGATION then
    match rs.1.gameState.crime with
    | some c => armEvidence rs.1 rs.2 c.evidence
    | none => rs
  else rs

/-- `startPhase(roomCode, phase, duration)`: set the phase and start
time, cancel the pending phase timer and all pending evidence timers,
broadcast the personalized phase update, arm the next phase timer when
a duration is given, and during `INTERROGATION` arm one evidence
timer per evidence item of the crime. -/
def startPhase (room : Room) (phase : GamePhase) (duration : Option Nat)
    (now : Nat) (sys : TimerSys) : StepOut :=
  let room1 : Room :=
    { room with
        gameState :=
          { room.gameState with phase := phase, phaseStartTime := some now } }
  let sys2 := clearedSys room1 sys
  let room2 : Room :=
    { room1 with timers := { room1.timers with evidenceTimers := [] } }
  let msgs := broadcastPhaseUpdate room2
  let withEv := armEvidenceStage phase (armPhaseTimer room2 duration sys2)
  { room := withEv.1, sys := withEv.2, msgs := msgs, scored := false }

/-- The body of the `votes.forEach` loop of `calculateResults`:
record the vote in `results.votes`; when the voter is still in the
room, either award `100 * confidence` for a correct accusation or
count the voter as fooled, and record the voter's running score. -/
def voteStep (g : Option String)
    (st : List (String × Player) × List (String × Vote) ×
      List (String × Nat) × Nat)
    (e : String × Vote) :
    List (String × Player) × List (String × Vote) ×
      List (String × Nat) × Nat :=
  let rvotes := mapSet st.2.1 e.1 e.2
  match mapGet st.1 e.1 with
  | none => (st.1, rvotes, st.2.2.1, st.2.2.2)
  | some p =>
      if some e.2.suspectId = g then
        let p2 : Player := { p with score := p.score + 100 * e.2.confidence }
        (mapSet st.1 e.1 p2, rvotes, mapSet st.2.2.1 e.1 p2.score, st.2.2.2)
      else
        (st.1, rvotes, mapSet st.2.2.1 e.1 p.score, st.2.2.2 + 1)

/-- `calculateResults(roomCode)`: process every vote, then award the
guilty player `150 * fooledCount`, storing the `results` object on the
game state. (Submitting leaderboard candidates is external IO and not
part of the room state.) -/
def calculateResults (room : Room) : Room :=
  let g := room.gameState.guiltyPlayerId
  let st := room.gameState.votes.foldl (voteStep g)
    (room.players, [], [], 0)
  let final :=
    match g with
    | none => (st.1, st.2.2.1)
    | some gid =>
        match mapGet st.1 gid with
        | none => (st.1, st.2.2.1)
        | some gp =>
            (mapSet st.1 gid { gp with score := gp.score + st.2.2.2 * 150 },
             mapSet st.2.2.1 gid (gp.score + st.2.2.2 * 150))
  { room with
      players := final.1,
      gameState :=
        { room.gameState with
            results := some ⟨g, st.2.1, final.2⟩ } }

/-- Spec-side helper (transcribed from the claim): the points a voter
gains from their own vote. -/
def specVoteGain (room : Room) (pid : String) : Nat :=
  match mapGet room.gameState.votes pid with
  | some v =>
      if some v.suspectId = room.gameState.guiltyPlayerId then
        100 * v.confidence
      else 0
  | none => 0

/-- Spec-side helper (transcribed from the claim): the number of
players still in the room whose vote accuses the wrong suspect. -/
def specFooledCount (room : Room) : Nat :=
  (room.gameState.votes.filter
    (fun e =>
      (mapGet room.players e.1).isSome &&
        !(decide (some e.2.suspectId = room.gameState.guiltyPlayerId)))).length

/-- Spec-side helper (transcribed from the claim): the guilty player's
bonus of `150 * fooledCount`. -/
def specGuiltyBonus (room : Room) (pid : String) : Nat :=
  if some pid = room.gameState.guiltyPlayerId then
    150 * specFooledCount room
  else 0

/-- Spec-side helper: the effect of one processed vote on the voter
(award `100 * confidence` on a correct accusation, nothing
otherwise). -/
def applyVote (g : Option String) (v : Vote) (p : Player) : Player :=
  if some v.suspectId = g then
    { p with score := p.score + 100 * v.confidence }
  else p

/-- `advancePhase(roomCode)`: look up the current phase in the fixed
sequence (a no-op when it is absent, i.e. `WAITING`), invoke
`calculateResults` when leaving `ACCUSATIONS`, and either start the
next phase with its fixed duration or wrap to `WAITING`, clearing
`guiltyPlayerId`. -/
def advancePhase (room : Room) (now : Nat) (sys : TimerSys) : StepOut :=
  match jsIndexOf room.gameState.phase phaseSequence with
  | none => { room := room, sys := sys, msgs := [], scored := false }
  | some currentIndex =>
      let step1 :=
        if some currentIndex = jsIndexOf GamePhase.ACCUSATIONS phaseSequence
        then (calculateResults room, true)
        else (room, false)
      if currentIndex < phaseSequence.length - 1 then
        let nextPhase := phaseSequence.getD (currentIndex + 1) GamePhase.WAITING
        let o := startPhase step1.1 nextPhase (PHASE_DURATIONS nextPhase) now sys
        { o with scored := step1.2 }
      else
        let room2 : Room :=
          { step1.1 with
              gameState :=
                { step1.1.gameState with
                    phase := .WAITING, guiltyPlayerId := none } }
        { room := room2, sys := sys, msgs := broadcastPhaseUpdate room2,
          scored := step1.2 }

/-- Iterate `advancePhase` a given number of times, counting in how
many of the steps `calculateResults` was invoked. -/
def roundScoredCount (room : Room) (sys : TimerSys) (now : Nat) :
    Nat → Nat
  | 0 => 0
  | n + 1 =>
      let o := advancePhase room now sys
      (if o.scored then 1 else 0) + roundScoredCount o.room o.sys now n

/-- `startGame(roomCode)`: return unless the room has at least 4
players; otherwise bump the round number, pick a crime and a guilty
player at random, clear the per-round data and start `SETUP`.
`crimeIdx` and `guiltyIdx` are the abstract random draws. -/
def startGame (room : Room) (crimeIdx guiltyIdx : Nat) (now : Nat)
    (sys : TimerSys) : StepOut :=
  if room.players.length < 4 then
    { room := room, sys := sys, msgs := [], scored := false }
  else
    let crimes := getCrimes
    let playerIds := room.players.map Prod.fst
    let gs :=
      { room.gameState with
          roundNumber := room.gameState.roundNumber + 1,
          phase := GamePhase.SETUP,
          crime := crimes.get? (crimeIdx % crimes.length),
          guiltyPlayerId := playerIds.get? (guiltyIdx % playerIds.length),
          alibis := [], questions := [], votes := [], currentEvidence := [] }
    startPhase { room with gameState := gs } .SETUP (PHASE_DURATIONS .SETUP)
      now sys

/-- `generateRoomCode`:
`Math.random().toString(36).substring(2, 6).toUpperCase()`, where
`digits` are the base-36 fraction digits of the random draw. -/
def generateRoomCode (digits : List Char) : String :=
  String.mk ((digits.take 4).map Char.toUpper)

/-- The fresh room object `createRoom` builds. -/
def newRoom (code : String) (host : String) : Room :=
  { code := code, host := host, players := [],
    gameState :=
      { phase := .WAITING, crime := none, guiltyPlayerId := none,
        alibis := [], questions := [], votes := [], currentEvidence := [],
        phaseStartTime := none, roundNumber := 0, results := none },
    timers := { phaseTimer := none, evidenceTimers := [] } }

/-- `createRoom`: generate a code from one random draw and `set` the
new room into the registry (overwriting any room already stored under
that code), replying `ROOM_CREATED` to the creator. -/
def createRoom (rooms : List (String × Room)) (digits : List Char)
    (hostId : String) : List (String × Room) × List Msg :=
  let roomCode := generateRoomCode digits
  (mapSet rooms roomCode (newRoom roomCode hostId),
   [Msg.ROOM_CREATED roomCode])

/-- `joinRoom` at room level: reject a full room or a game in
progress; otherwise add the player (round-robin color/avatar by the
current player count), broadcast `PLAYER_JOINED` and reply
`ROOM_JOINED` with the joiner's personalized snapshot. -/
def joinRoom (room : Room) (playerId playerName : String) :
    Room × List Msg :=
  if 8 ≤ room.players.length then (room, [Msg.ERROR "Room is full"])
  else if room.gameState.phase ≠ GamePhase.WAITING then
    (room, [Msg.ERROR "Game already in progress"])
  else
    let colorIndex := room.players.length % 8
    let avatarIndex := room.players.length % 8
    let player : Player :=
      { id := playerId, name := playerName,
        color := COLORS.getD colorIndex "", avatar := AVATARS.getD avatarIndex "",
        score := 0, isGuilty := false }
    let room2 : Room :=
      { room with players := mapSet room.players playerId player }
    (room2,
     [Msg.PLAYER_JOINED player room2.players.length,
      Msg.ROOM_JOINED room2.code (room2.players.map Prod.snd)
        (getPublicGameState room2 playerId)])

/-- `submitAlibi`: ignored outside `ALIBI_CONSTRUCTION`; otherwise
overwrite the player's alibi and broadcast `ALIBI_SUBMITTED`. -/
def submitAlibi (room : Room) (playerId alibi : String) :
    Room × List Msg :=
  if room.gameState.phase ≠ GamePhase.ALIBI_CONSTRUCTION then (room, [])
  else
    ({ room with
        gameState :=
          { room.gameState with
              alibis := mapSet room.gameState.alibis playerId alibi } },
     [Msg.ALIBI_SUBMITTED playerId])

/-- `askQuestion`: ignored outside `INTERROGATION` or beyond the
3-questions-per-asker limit; otherwise append a fresh question and
broadcast it. The generated id `q_${Date.now()}_${Math.random()}` is
modelled from the explicit `now` and `rnd` draws. -/
def askQuestion (room : Room) (playerId toId questionText : String)
    (now rnd : Nat) : Room × List Msg :=
  if room.gameState.phase ≠ GamePhase.INTERROGATION then (room, [])
  else if 3 ≤ (room.gameState.questions.filter
      (fun q => q.«from» == playerId)).length then (room, [])
  else
    let q : Question :=
      { id := "q_" ++ toString now ++ "_" ++ toString rnd,
        «from» := playerId, «to» := toId, question := questionText,
        answer := none, timestamp := now }
    ({ room with
        gameState :=
          { room.gameState with questions := room.gameState.questions ++ [q] } },
     [Msg.NEW_QUESTION q])

/-- JS truthiness of the `answer` field: `null` and the empty string
are falsy, any other string is truthy. -/
def jsTruthy : Option String → Bool
  | none => false
  | some s => !(s == "")

/-- Set the answer on the first question with the given id (the object
`find` returned is mutated in place). -/
def setAnswerFirst : List Question → String → String → List Question
  | [], _, _ => []
  | q :: qs, qid, ans =>
      if q.id == qid then { q with answer := some ans } :: qs
      else q :: setAnswerFirst qs qid ans

/-- `answerQuestion`: ignored when the question is not found, the
caller is not the question's `to`, or `question.answer` is truthy;
otherwise store the answer and broadcast `QUESTION_ANSWERED`. -/
def answerQuestion (room : Room) (callerId questionId answer : String) :
    Room × List Msg :=
  match room.gameState.questions.find? (fun q => q.id == questionId) with
  | none => (room, [])
  | some q =>
      if q.«to» ≠ callerId then (room, [])
      else if jsTruthy q.answer then (room, [])
      else
        ({ room with
            gameState :=
              { room.gameState with
                  questions :=
                    setAnswerFirst room.gameState.questions questionId answer } },
         [Msg.QUESTION_ANSWERED questionId answer])

/-- `submitVote`: ignored outside `ACCUSATIONS`; otherwise overwrite
the voter's vote with the confidence clamped into `[1, 3]`. -/
def submitVote (room : Room) (playerId suspectId : String)
    (confidence : Nat) : Room × List Msg :=
  if room.gameState.phase ≠ GamePhase.ACCUSATIONS then (room, [])
  else
    ({ room with
        gameState :=
          { room.gameState with
              votes :=
                mapSet room.gameState.votes playerId
                  ⟨suspectId, min 3 (max 1 confidence)⟩ } },
     [Msg.VOTE_SUBMITTED playerId])

/-- `handleDisconnect` at room level: remove the player and broadcast
`PLAYER_LEFT` (deleting an empty room is registry-level). -/
def handleDisconnect (room : Room) (playerId : String) :
    Room × List Msg :=
  let room2 : Room :=
    { room with players := room.players.filter (fun e => !(e.1 == playerId)) }
  (room2, [Msg.PLAYER_LEFT playerId room2.players.length])

/-- The room-mutating server operations, with their random draws and
timestamps made explicit. -/
inductive ServerOp where
  | join (pid name : String)
  | start (crimeIdx guiltyIdx now : Nat)
  | advance (now : Nat)
  | beginPhase (p : GamePhase) (d : Option Nat) (now : Nat)
  | alibi (pid text : String)
  | ask (pid toId text : String) (now rnd : Nat)
  | answer (pid qid ans : String)
  | vote (pid suspectId : String) (conf : Nat)
  | score
  | leave (pid : String)

/-- Apply one server operation to a room (dropping the emitted
messages). -/
def applyOp (room : Room) (sys : TimerSys) : ServerOp → Room × TimerSys
  | .join pid name => ((joinRoom room pid name).1, sys)
  | .start ci gi now =>
      let o := startGame room ci gi now sys
      (o.room, o.sys)
  | .advance now =>
      let o := advancePhase room now sys
      (o.room, o.sys)
  | .beginPhase p d now =>
      let o := startPhase room p d now sys
      (o.room, o.sys)
  | .alibi pid text => ((submitAlibi room pid text).1, sys)
  | .ask pid toId text now rnd =>
      ((askQuestion room pid toId text now rnd).1, sys)
  | .answer pid qid ans => ((answerQuestion room pid qid ans).1, sys)
  | .vote pid s c => ((submitVote room pid s c).1, sys)
  | .score => (calculateResults room, sys)
  | .leave pid => ((handleDisconnect room pid).1, sys)

/-- No player record in the room carries `isGuilty = true`. -/
def NoGuiltyFlag (room : Room) : Prop :=
  ∀ e ∈ room.players, e.2.isGuilty = false

/-- Well-formedness of a room's timer handles with respect to the
timer system: every armed id and every handle the room holds is below
the next fresh id. -/
def TimerWF (room : Room) (sys : TimerSys) : Prop :=
  (∀ t ∈ sys.armed, t < sys.nextId) ∧
  (∀ t, room.timers.phaseTimer = some t → t < sys.nextId) ∧
  (∀ t ∈ room.timers.evidenceTimers, t < sys.nextId)


/-- A concrete player record (for concrete evaluations). -/
def mkP (pid nm : String) : Player :=
  { id := pid, name := nm, color := "#E63946", avatar := "detective",
    score := 0, isGuilty := false }

/-- The empty timer system. -/
def sys0 : TimerSys := { armed := [], nextId := 0 }

/-- A waiting room with four players. -/
def exRoom4 : Room :=
  { code := "AB12", host := "p1",
    players := [("p1", mkP "p1" "Alice"), ("p2", mkP "p2" "Bob"),
                ("p3", mkP "p3" "Cara"), ("p4", mkP "p4" "Dan")],
    gameState := (newRoom "AB12" "p1").gameState,
    timers := { phaseTimer := none, evidenceTimers := [] } }

/-- A waiting room with only two players. -/
def exRoom2 : Room := { exRoom4 with players := exRoom4.players.take 2 }

/-- A four-player room whose phase is already SETUP. -/
def exRoomSetup : Room :=
  { exRoom4 with gameState := { exRoom4.gameState with phase := .SETUP } }

/-- A four-player room mid-interrogation holding one unanswered
question addressed to player p2. -/
def exRoom9 : Room :=
  { exRoom4 with
      gameState :=
        { exRoom4.gameState with
            phase := .INTERROGATION,
            questions :=
              [{ id := "q1", «from» := "p1", «to» := "p2",
                 question := "where were you", answer := none,
                 timestamp := 0 }] } }

/-- A four-player room in ACCUSATIONS with guilty player p3 and two
votes cast: p1 accuses p3 (confidence 2, correct), p2 accuses p1
(confidence 1, wrong); p4 did not vote. -/
def exRoomVotes : Room :=
  { exRoom4 with
      gameState :=
        { exRoom4.gameState with
            phase := .ACCUSATIONS,
            guiltyPlayerId := some "p3",
            votes := [("p1", ⟨"p3", 2⟩), ("p2", ⟨"p1", 1⟩)] } }

/-- A four-player room in SETUP with a crime and guilty player p2. -/
def exRoomC5 : Room :=
  { exRoom4 with
      gameState :=
        { exRoom4.gameState with
            phase := .SETUP,
            crime := getCrimes.get? 0,
            guiltyPlayerId := some "p2" } }

/-- A room that has already played seven rounds (stored under code
AB12 in the registry fixture below). -/
def oldRoomC6 : Room :=
  { newRoom "AB12" "h0" with
      gameState := { (newRoom "AB12" "h0").gameState with roundNumber := 7 } }

/-- A registry already containing a room under code AB12. -/
def exRegC6 : List (String × Room) := [("AB12", oldRoomC6)]

/-- A four-player interrogation room holding armed timer handles. -/
def exRoomW : Room :=
  { exRoom4 with
      gameState := { exRoom4.gameState with phase := .INTERROGATION },
      timers := { phaseTimer := some 3, evidenceTimers := [4, 5] } }

/-- A timer system in which the handles of exRoomW are armed. -/
def exSysW : TimerSys := { armed := [3, 4, 5], nextId := 6 }

/-! Association-list (JS Map) lemmas. -/

theorem mapGet_cons {α : Type} (e : String × α) (m : List (String × α)) (k : String) :
    mapGet (e :: m) k = if e.1 = k then some e.2 else mapGet m k := by
  by_cases h : e.1 = k
  · simp [mapGet, List.find?_cons_of_pos, h]
  · rw [if_neg h]
    have hb : ((fun (x : String × α) => x.1 == k) e) = false := by simpa using h
    simp [mapGet, List.find?_cons_of_neg, hb]

theorem mapGet_map_update {α : Type} (k : String) (v : α) :
    ∀ (m : List (String × α)) (k2 : String),
      mapGet (m.map (fun e => if e.1 = k then (k, v) else e)) k2 =
        if k2 = k ∧ (∃ e ∈ m, e.1 = k) then some v else mapGet m k2 := by
  intro m
  induction m with
  | nil => simp
  | cons e es ih =>
    intro k2
    by_cases he : e.1 = k
    · by_cases hk : k2 = k
      · simp [mapGet_cons, he, hk]
      · have h1 : ¬ ((k, v).1 = k2) := fun hh => hk hh.symm
        have h2 : ¬ (e.1 = k2) := by rw [he]; exact h1
        simp only [List.map_cons, mapGet_cons, if_pos he, if_neg h1, if_neg h2,
          ih k2, if_neg (by simp [hk] : ¬(k2 = k ∧ ∃ x ∈ es, x.1 = k)),
          if_neg (by simp [hk] : ¬(k2 = k ∧ ∃ x ∈ e :: es, x.1 = k))]
    · by_cases hk2 : e.1 = k2
      · have hne : ¬(k2 = k ∧ ∃ x ∈ e :: es, x.1 = k) := by
          rintro ⟨hk, -⟩; exact he (hk2.trans hk)
        have hkk : ¬ k2 = k := fun h => he (hk2.trans h)
        simp [mapGet_cons, he, hk2, hne, hkk]
      · have hiff : (k2 = k ∧ ∃ x ∈ e :: es, x.1 = k) ↔
            (k2 = k ∧ ∃ x ∈ es, x.1 = k) := by
          constructor
          · rintro ⟨hk, x, hx, hxk⟩
            rcases List.mem_cons.mp hx with rfl | hxes
            · exact absurd hxk he
            · exact ⟨hk, x, hxes, hxk⟩
          · rintro ⟨hk, x, hx, hxk⟩
            exact ⟨hk, x, List.mem_cons_of_mem e hx, hxk⟩
        simp only [List.map_cons, mapGet_cons, if_neg he, if_neg hk2, ih k2]
        rw [if_congr hiff.symm rfl rfl]

theorem mapGet_append_new {α : Type} (k : String) (v : α) :
    ∀ (m : List (String × α)) (k2 : String), (∀ e ∈ m, ¬ e.1 = k) →
      mapGet (m ++ [(k, v)]) k2 = if k2 = k then some v else mapGet m k2 := by
  intro m
  induction m with
  | nil =>
    intro k2 _
    by_cases hk : k2 = k
    · simp [mapGet_cons, hk]
    · have h1 : ¬ ((k, v).1 = k2) := fun h => hk h.symm
      simp [mapGet_cons, hk, h1]
  | cons e es ih =>
    intro k2 hall
    have he : ¬ e.1 = k := hall e (List.mem_cons_self e es)
    by_cases hk2 : e.1 = k2
    · have : ¬ k2 = k := fun h => he (hk2.trans h)
      simp [mapGet_cons, hk2, this]
    · simp only [List.cons_append, mapGet_cons, if_neg hk2]
      exact ih k2 (fun x hx => hall x (List.mem_cons_of_mem e hx))

theorem mapGet_mapSet {α : Type} (m : List (String × α)) (k k2 : String) (v : α) :
    mapGet (mapSet m k v) k2 = if k2 = k then some v else mapGet m k2 := by
  unfold mapSet
  by_cases hany : (m.any fun e => e.1 == k) = true
  · rw [if_pos hany]
    have hex : ∃ e ∈ m, e.1 = k := by simpa using hany
    have h2 : (k2 = k ∧ ∃ e ∈ m, e.1 = k) ↔ (k2 = k) := by simp [hex]
    have hmaps : (List.map (fun e => if (e.1 == k) = true then (k, v) else e) m) =
        (List.map (fun e => if e.1 = k then (k, v) else e) m) :=
      List.map_congr_left (fun a _ => by by_cases ha : a.1 = k <;> simp [ha])
    rw [hmaps, mapGet_map_update k v m k2, if_congr h2 rfl rfl]
  · rw [if_neg hany]
    have hall : ∀ e ∈ m, ¬ e.1 = k := by
      intro e hx
      simp only [List.any_eq_true, Bool.not_eq_true] at hany
      intro hek
      exact hany ⟨e, hx, by simpa using hek⟩
    exact mapGet_append_new k v m k2 hall

theorem mapGet_mapSet_self {α : Type} (m : List (String × α)) (k : String) (v : α) :
    mapGet (mapSet m k v) k = some v := by simp [mapGet_mapSet]

theorem mapGet_mapSet_ne {α : Type} (m : List (String × α)) (k k2 : String) (v : α)
    (h : k2 ≠ k) : mapGet (mapSet m k v) k2 = mapGet m k2 := by
  simp [mapGet_mapSet, h]

theorem keys_mapSet_of_isSome {α : Type} (m : List (String × α)) (k : String) (v : α)
    (h : (mapGet m k).isSome = true) :
    (mapSet m k v).map Prod.fst = m.map Prod.fst := by
  have hany : (m.any fun e => e.1 == k) = true := by
    rcases Option.isSome_iff_exists.mp h with ⟨w, hw⟩
    rcases Option.map_eq_some'.mp hw with ⟨e, he, -⟩
    have h1 := List.find?_some he
    have h2 := List.mem_of_find?_eq_some he
    exact List.any_eq_true.mpr ⟨e, h2, h1⟩
  unfold mapSet
  rw [if_pos hany, List.map_map]
  apply List.map_congr_left
  intro a _
  by_cases ha : a.1 = k <;> simp [ha]

theorem mapGet_isSome_iff {α : Type} (m : List (String × α)) (k : String) :
    (mapGet m k).isSome = true ↔ k ∈ m.map Prod.fst := by
  induction m with
  | nil => simp [mapGet]
  | cons e es ih =>
    rw [mapGet_cons]
    by_cases he : e.1 = k
    · simp [he]
    · rw [if_neg he]
      simp only [List.map_cons, List.mem_cons]
      constructor
      · intro hh
        exact Or.inr (ih.mp hh)
      · rintro (hh | hh)
        · exact absurd hh.symm he
        · exact ih.mpr hh

theorem mapGet_eq_some_mem {α : Type} {m : List (String × α)} {k : String} {v : α}
    (h : mapGet m k = some v) : (k, v) ∈ m := by
  unfold mapGet at h
  rcases Option.map_eq_some'.mp h with ⟨e, he, hv⟩
  have h1 : (e.1 == k) = true := @List.find?_some _ (fun x => x.1 == k) e m he
  have h2 := List.mem_of_find?_eq_some he
  rcases e with ⟨a, b⟩
  simp only [beq_iff_eq] at h1
  simp only at hv
  rw [← h1, ← hv]
  exact h2

theorem mapGet_eq_some_iff_nodup {α : Type} {m : List (String × α)} {k : String} {v : α}
    (h : (m.map Prod.fst).Nodup) : mapGet m k = some v ↔ (k, v) ∈ m := by
  constructor
  · exact mapGet_eq_some_mem
  · intro hmem
    induction m with
    | nil => simp at hmem
    | cons e es ih =>
      rw [mapGet_cons]
      rcases List.mem_cons.mp hmem with rfl | hes
      · simp
      · have h2 : e.1 ∉ es.map Prod.fst ∧ (es.map Prod.fst).Nodup := by
          rw [List.map_cons, List.nodup_cons] at h
          exact h
        have hk : k ∈ es.map Prod.fst :=
          List.mem_map.mpr ⟨(k, v), hes, rfl⟩
        have he : ¬ e.1 = k := fun hek => h2.1 (hek ▸ hk)
        rw [if_neg he]
        exact ih h2.2 hes

theorem mapGet_eq_none_iff {α : Type} (m : List (String × α)) (k : String) :
    mapGet m k = none ↔ k ∉ m.map Prod.fst := by
  rw [← mapGet_isSome_iff]
  cases h : mapGet m k <;> simp [h]

theorem forall_snd_mapSet {α : Type} {P : α → Prop} {m : List (String × α)}
    {k : String} {v : α} (hm : ∀ e ∈ m, P e.2) (hv : P v) :
    ∀ e ∈ mapSet m k v, P e.2 := by
  intro e he
  unfold mapSet at he
  split at he
  · rcases List.mem_map.mp he with ⟨a, ha, rfl⟩
    by_cases hak : (a.1 == k) = true
    · rw [if_pos hak]
      exact hv
    · rw [if_neg hak]
      exact hm a ha
  · rcases List.mem_append.mp he with hm2 | hm2
    · exact hm e hm2
    · rcases List.mem_singleton.mp hm2 with rfl
      exact hv


/-! Structural lemmas about the phase machinery. -/

theorem armEvidence_gameState :
    ∀ (evs : List Evidence) (room : Room) (sys : TimerSys),
      (armEvidence room sys evs).1.gameState = room.gameState := by
  intro evs
  induction evs with
  | nil => intro room sys; rfl
  | cons e evs ih =>
    intro room sys
    have h : armEvidence room sys (e :: evs) =
        armEvidence
          { room with
              timers :=
                { room.timers with
                    evidenceTimers :=
                      room.timers.evidenceTimers ++ [(setT sys).1] } }
          (setT sys).2 evs := rfl
    rw [h, ih]

theorem armEvidence_players :
    ∀ (evs : List Evidence) (room : Room) (sys : TimerSys),
      (armEvidence room sys evs).1.players = room.players := by
  intro evs
  induction evs with
  | nil => intro room sys; rfl
  | cons e evs ih =>
    intro room sys
    have h : armEvidence room sys (e :: evs) =
        armEvidence
          { room with
              timers :=
                { room.timers with
                    evidenceTimers :=
                      room.timers.evidenceTimers ++ [(setT sys).1] } }
          (setT sys).2 evs := rfl
    rw [h, ih]

theorem armPhaseTimer_fst_gameState (room : Room) (d : Option Nat)
    (sys : TimerSys) :
    (armPhaseTimer room d sys).1.gameState = room.gameState := by
  unfold armPhaseTimer
  split
  · split
    · rfl
    · rfl
  · rfl

theorem armPhaseTimer_fst_players (room : Room) (d : Option Nat)
    (sys : TimerSys) :
    (armPhaseTimer room d sys).1.players = room.players := by
  unfold armPhaseTimer
  split
  · split
    · rfl
    · rfl
  · rfl

theorem armEvidenceStage_fst_gameState (p : GamePhase) (rs : Room × TimerSys) :
    (armEvidenceStage p rs).1.gameState = rs.1.gameState := by
  unfold armEvidenceStage
  split
  · split
    · rw [armEvidence_gameState]
    · rfl
  · rfl

theorem armEvidenceStage_fst_players (p : GamePhase) (rs : Room × TimerSys) :
    (armEvidenceStage p rs).1.players = rs.1.players := by
  unfold armEvidenceStage
  split
  · split
    · rw [armEvidence_players]
    · rfl
  · rfl

theorem startPhase_gameState (room : Room) (p : GamePhase) (d : Option Nat)
    (now : Nat) (sys : TimerSys) :
    (startPhase room p d now sys).room.gameState =
      { room.gameState with phase := p, phaseStartTime := some now } := by
  unfold startPhase
  dsimp only
  rw [armEvidenceStage_fst_gameState, armPhaseTimer_fst_gameState]

theorem startPhase_players (room : Room) (p : GamePhase) (d : Option Nat)
    (now : Nat) (sys : TimerSys) :
    (startPhase room p d now sys).room.players = room.players := by
  unfold startPhase
  dsimp only
  rw [armEvidenceStage_fst_players, armPhaseTimer_fst_players]

theorem startPhase_scored (room : Room) (p : GamePhase) (d : Option Nat)
    (now : Nat) (sys : TimerSys) :
    (startPhase room p d now sys).scored = false := rfl

/-- C5: in every personalized snapshot, the crime field is the
redacted `{location, time, hidden:true}` object exactly when the
recipient is the guilty player and the full crime otherwise, the
snapshot's `isGuilty` flag is true exactly when the recipient's id
equals `guiltyPlayerId`, and every `PHASE_CHANGE` broadcast carries
the personalized snapshot of its recipient. -/
theorem getPublicGameState_redacts_iff_guilty :
    ∀ (room : Room) (pid : String),
      ((getPublicGameState room pid).isGuilty = true ↔
        room.gameState.guiltyPlayerId = some pid) ∧
      (room.gameState.guiltyPlayerId = some pid →
        (getPublicGameState room pid).crime =
          CrimeField.redacted (room.gameState.crime.map Crime.location)
            (room.gameState.crime.map Crime.time)) ∧
      (room.gameState.guiltyPlayerId ≠ some pid →
        (getPublicGameState room pid).crime =
          CrimeField.full room.gameState.crime) ∧
      (∀ msg ∈ broadcastPhaseUpdate room, ∃ e ∈ room.players,
        msg = Msg.PHASE_CHANGE e.1 (getPublicGameState room e.1)) := by
  intro room pid
  refine ⟨?_, ?_, ?_, ?_⟩
  · by_cases h : room.gameState.guiltyPlayerId = some pid <;>
      simp [getPublicGameState, h]
  · intro h
    simp [getPublicGameState, h]
  · intro h
    simp [getPublicGameState, h]
  · intro msg hmsg
    rcases List.mem_map.mp hmsg with ⟨e, he, rfl⟩
    exact ⟨e, he, rfl⟩

/-- Witness for C5: in exRoomC5 (guilty player p2), p2 receives the
redacted crime and p1 the full crime. -/
theorem getPublicGameState_redacts_iff_guilty_witness :
    exRoomC5.gameState.guiltyPlayerId = some "p2" ∧
    (getPublicGameState exRoomC5 "p2").crime =
      CrimeField.redacted (exRoomC5.gameState.crime.map Crime.location)
        (exRoomC5.gameState.crime.map Crime.time) ∧
    (getPublicGameState exRoomC5 "p1").crime =
      CrimeField.full exRoomC5.gameState.crime :=
  ⟨rfl,
   (getPublicGameState_redacts_iff_guilty exRoomC5 "p2").2.1 rfl,
   (getPublicGameState_redacts_iff_guilty exRoomC5 "p1").2.2.1 (by decide)⟩

/-- C6 counterexample: with the registry already holding a room under
code AB12 (a room that has played 7 rounds) and a random draw whose
base-36 digits are a,b,1,2, `createRoom` generates the colliding code
AB12 and does not retry: it overwrites the existing room, so the
generated code was not unique in the registry and the pre-existing
room is lost. -/
theorem createRoom_overwrites_on_collision :
    generateRoomCode ['a', 'b', '1', '2'] = "AB12" ∧
    mapGet exRegC6 "AB12" = some oldRoomC6 ∧
    mapGet (createRoom exRegC6 ['a', 'b', '1', '2'] "h1").1 "AB12" =
      some (newRoom "AB12" "h1") ∧
    newRoom "AB12" "h1" ≠ oldRoomC6 := by
  refine ⟨rfl, rfl, ?_, by decide⟩
  have h := mapGet_mapSet_self exRegC6 "AB12" (newRoom "AB12" "h1")
  exact h

/-- C6 as amended: `createRoom` derives the code from a single draw
(the first four base-36 fraction digits, uppercased) with no
uniqueness check or retry, and stores the fresh room (WAITING, empty
players, round 0) under that code, overwriting any room already
registered there; every other registry entry is untouched and the
only message is `ROOM_CREATED` to the creator. -/
theorem createRoom_spec :
    ∀ (rooms : List (String × Room)) (digits : List Char) (hostId : String),
      (createRoom rooms digits hostId).1 =
        mapSet rooms (generateRoomCode digits)
          (newRoom (generateRoomCode digits) hostId) ∧
      mapGet (createRoom rooms digits hostId).1 (generateRoomCode digits) =
        some (newRoom (generateRoomCode digits) hostId) ∧
      (∀ c2, c2 ≠ generateRoomCode digits →
        mapGet (createRoom rooms digits hostId).1 c2 = mapGet rooms c2) ∧
      (newRoom (generateRoomCode digits) hostId).gameState.phase =
        GamePhase.WAITING ∧
      (newRoom (generateRoomCode digits) hostId).players = [] ∧
      (newRoom (generateRoomCode digits) hostId).gameState.roundNumber = 0 ∧
      (4 ≤ digits.length → (generateRoomCode digits).length = 4) ∧
      (createRoom rooms digits hostId).2 =
        [Msg.ROOM_CREATED (generateRoomCode digits)] := by
  intro rooms digits hostId
  refine ⟨rfl, mapGet_mapSet_self _ _ _,
    fun c2 hc => mapGet_mapSet_ne _ _ _ _ hc, rfl, rfl, rfl, ?_, rfl⟩
  intro h
  show (String.mk ((digits.take 4).map Char.toUpper)).length = 4
  simp [String.length, List.length_take]
  omega

/-- Witness for C6 (amended): the concrete draw a,b,1,2 has at least
4 digits and yields a 4-character code; an unrelated code ZZ99 still
resolves as before. -/
theorem createRoom_spec_witness :
    4 ≤ (['a', 'b', '1', '2'] : List Char).length ∧
    (generateRoomCode ['a', 'b', '1', '2']).length = 4 ∧
    mapGet (createRoom exRegC6 ['a', 'b', '1', '2'] "h1").1 "ZZ99" =
      mapGet exRegC6 "ZZ99" :=
  ⟨by decide,
   (createRoom_spec exRegC6 ['a', 'b', '1', '2'] "h1").2.2.2.2.2.2.1 (by decide),
   (createRoom_spec exRegC6 ['a', 'b', '1', '2'] "h1").2.2.1 "ZZ99" (by decide)⟩

/-- C7: the server's inline catalog `getCrimes` has 3 entries, not
the 5 of `CRIMES` in src/crimes.ts (and of the README's "5 different
crime scenarios"); every crime the server can select is one of its 3
entries (each of which is among the first three of `CRIMES`), and the
last two entries of `CRIMES` are unreachable on the server. -/
theorem crimeCatalog_mismatch :
    getCrimes.length = 3 ∧ CRIMES.length = 5 ∧
    (∀ i : Nat, ∃ c, getCrimes.get? (i % getCrimes.length) = some c ∧
      c ∈ getCrimes ∧ c ∈ CRIMES) ∧
    (∀ c ∈ getCrimes, CRIMES.get? 3 ≠ some c ∧ CRIMES.get? 4 ≠ some c) := by
  refine ⟨rfl, rfl, ?_, by decide⟩
  intro i
  have h3 : i % 3 = 0 ∨ i % 3 = 1 ∨ i % 3 = 2 := by omega
  have hlen : getCrimes.length = 3 := rfl
  rw [hlen]
  rcases h3 with h | h | h <;> rw [h] <;> exact ⟨_, rfl, by decide, by decide⟩


/-- C1 counterexample: in a four-player room whose phase is SETUP
(not WAITING), `startGame` is not a no-op: the server checks only the
player count, so it bumps the round number and broadcasts, restarting
the round mid-game. -/
theorem startGame_ignores_phase_counterexample :
    exRoomSetup.gameState.phase ≠ GamePhase.WAITING ∧
    4 ≤ exRoomSetup.players.length ∧
    exRoomSetup.gameState.roundNumber = 0 ∧
    (startGame exRoomSetup 0 0 5 sys0).room.gameState.roundNumber = 1 ∧
    (startGame exRoomSetup 0 0 5 sys0).msgs ≠ [] := by
  refine ⟨by decide, by decide, rfl, rfl, by decide⟩

/-- C1 as amended: `startGame` is a no-op — room, timers and emitted
messages all unchanged — exactly when the room has fewer than 4
players; whenever it has at least 4 players (regardless of the
current phase) it increments `roundNumber`, clears
alibis/questions/votes/currentEvidence, and transitions to SETUP. -/
theorem startGame_spec :
    ∀ (room : Room) (ci gi now : Nat) (sys : TimerSys),
      (room.players.length < 4 →
        startGame room ci gi now sys =
          { room := room, sys := sys, msgs := [], scored := false }) ∧
      (4 ≤ room.players.length →
        (startGame room ci gi now sys).room.gameState.roundNumber =
          room.gameState.roundNumber + 1 ∧
        (startGame room ci gi now sys).room.gameState.phase =
          GamePhase.SETUP ∧
        (startGame room ci gi now sys).room.gameState.alibis = [] ∧
        (startGame room ci gi now sys).room.gameState.questions = [] ∧
        (startGame room ci gi now sys).room.gameState.votes = [] ∧
        (startGame room ci gi now sys).room.gameState.currentEvidence = []) := by
  intro room ci gi now sys
  constructor
  · intro h
    unfold startGame
    rw [if_pos h]
  · intro h
    unfold startGame
    rw [if_neg (Nat.not_lt.mpr h)]
    dsimp only
    refine ⟨?_, ?_, ?_, ?_, ?_, ?_⟩ <;> rw [startPhase_gameState]

/-- Witness for C1 (amended): a two-player room is left untouched,
and a four-player room in WAITING gets its round number bumped. -/
theorem startGame_spec_witness :
    exRoom2.players.length < 4 ∧
    startGame exRoom2 0 0 5 sys0 =
      { room := exRoom2, sys := sys0, msgs := [], scored := false } ∧
    4 ≤ exRoom4.players.length ∧
    (startGame exRoom4 0 0 5 sys0).room.gameState.roundNumber =
      exRoom4.gameState.roundNumber + 1 :=
  ⟨by decide, (startGame_spec exRoom2 0 0 5 sys0).1 (by decide), by decide,
   ((startGame_spec exRoom4 0 0 5 sys0).2 (by decide)).1⟩

/-- C8 counterexample: `startGame` draws the guilty player uniformly
from all current players without excluding the previous round's
guilty player: with the same draw in two consecutive rounds of a
four-player room, player p1 is guilty in round 1 and again in round
2. -/
theorem startGame_reuses_guilty_counterexample :
    (startGame exRoom4 0 0 5 sys0).room.gameState.guiltyPlayerId =
      some "p1" ∧
    (startGame (startGame exRoom4 0 0 5 sys0).room 0 0 20
        (startGame exRoom4 0 0 5 sys0).sys).room.gameState.roundNumber = 2 ∧
    (startGame (startGame exRoom4 0 0 5 sys0).room 0 0 20
        (startGame exRoom4 0 0 5 sys0).sys).room.gameState.guiltyPlayerId =
      some "p1" ∧
    2 ≤ (startGame (startGame exRoom4 0 0 5 sys0).room 0 0 20
        (startGame exRoom4 0 0 5 sys0).sys).room.players.length := by
  refine ⟨rfl, rfl, rfl, by decide⟩

/-- C8 as amended: on every successful `startGame` (at least 4
players) the selected `guiltyPlayerId` is a member of the room's
current player set; the selection is a fresh uniform draw that may
repeat the previous round's guilty player even when the room has
several players. -/
theorem startGame_guilty_mem :
    ∀ (room : Room) (ci gi now : Nat) (sys : TimerSys),
      4 ≤ room.players.length →
      ∃ g, (startGame room ci gi now sys).room.gameState.guiltyPlayerId =
          some g ∧ g ∈ room.players.map Prod.fst := by
  intro room ci gi now sys h
  unfold startGame
  rw [if_neg (Nat.not_lt.mpr h)]
  dsimp only
  have hpos : 0 < (room.players.map Prod.fst).length := by
    rw [List.length_map]
    omega
  have hi : gi % (room.players.map Prod.fst).length <
      (room.players.map Prod.fst).length := Nat.mod_lt _ hpos
  refine ⟨(room.players.map Prod.fst).get ⟨_, hi⟩, ?_, List.get_mem _ _ _⟩
  rw [startPhase_gameState]
  dsimp only
  exact List.get?_eq_get hi

/-- Witness for C8 (amended): in the four-player room, a concrete
draw produces a guilty player from the player set. -/
theorem startGame_guilty_mem_witness :
    4 ≤ exRoom4.players.length ∧
    ∃ g, (startGame exRoom4 1 2 5 sys0).room.gameState.guiltyPlayerId =
        some g ∧ g ∈ exRoom4.players.map Prod.fst :=
  ⟨by decide, startGame_guilty_mem exRoom4 1 2 5 sys0 (by decide)⟩

/-- Finding a question after `setAnswerFirst`: the first question
with the given id now carries the stored answer. -/
theorem find_setAnswerFirst (qs : List Question) (qid ans : String) :
    (setAnswerFirst qs qid ans).find? (fun q => q.id == qid) =
      (qs.find? (fun q => q.id == qid)).map
        (fun q => { q with answer := some ans }) := by
  induction qs with
  | nil => rfl
  | cons q qs ih =>
    by_cases h : (q.id == qid) = true
    · rw [setAnswerFirst, if_pos h]
      rw [@List.find?_cons_of_pos _ (fun x => x.id == qid) _ qs
        (by simpa using h)]
      rw [@List.find?_cons_of_pos _ (fun x => x.id == qid) q qs h]
      rfl
    · rw [setAnswerFirst, if_neg h]
      rw [@List.find?_cons_of_neg _ (fun x => x.id == qid) _
        (setAnswerFirst qs qid ans) (by simpa using h)]
      rw [@List.find?_cons_of_neg _ (fun x => x.id == qid) q qs h, ih]

/-- C9 counterexample: the already-answered guard tests JS truthiness
of `question.answer`, and the empty string is falsy: after a first
successful call stores the answer "", a second call overwrites it
with "yes", so the second call is not a no-op and the stored answer
differs from what the first successful call set. -/
theorem answerQuestion_empty_answer_counterexample :
    (answerQuestion exRoom9 "p2" "q1" "").1.gameState.questions.map
        Question.answer = [some ""] ∧
    (answerQuestion (answerQuestion exRoom9 "p2" "q1" "").1 "p2" "q1"
        "yes").1.gameState.questions.map Question.answer = [some "yes"] ∧
    (answerQuestion (answerQuestion exRoom9 "p2" "q1" "").1 "p2" "q1"
        "yes").1 ≠ (answerQuestion exRoom9 "p2" "q1" "").1 := by
  refine ⟨rfl, rfl, by decide⟩

/-- C9 as amended: `answerQuestion` is ignored when the question id
is not found, the caller is not the question's `to` player, or the
question already has a truthy (non-empty) answer; once a call stores
a non-empty answer, a repeated call for the same question id by the
same caller has no effect, and the stored answer is the one the
first successful call set. (An empty-string answer is falsy in JS
and does not lock the question.) -/
theorem answerQuestion_sets_once :
    ∀ (room : Room) (c qid a1 a2 : String), a1 ≠ "" →
      (answerQuestion (answerQuestion room c qid a1).1 c qid a2 =
        ((answerQuestion room c qid a1).1, [])) ∧
      (∀ q, room.gameState.questions.find? (fun x => x.id == qid) = some q →
        q.«to» = c → jsTruthy q.answer = false →
        (answerQuestion room c qid a1).1.gameState.questions.find?
            (fun x => x.id == qid) = some { q with answer := some a1 }) := by
  intro room c qid a1 a2 ha1
  have hstore : ∀ q, room.gameState.questions.find?
        (fun x => x.id == qid) = some q →
      q.«to» = c → jsTruthy q.answer = false →
      (answerQuestion room c qid a1).1.gameState.questions.find?
          (fun x => x.id == qid) = some { q with answer := some a1 } := by
    intro q hq hto hans
    unfold answerQuestion
    rw [hq]
    dsimp only
    rw [if_neg (by simp [hto])]
    rw [if_neg (by simp [hans])]
    dsimp only
    rw [find_setAnswerFirst, hq]
    rfl
  refine ⟨?_, hstore⟩
  cases hfind : room.gameState.questions.find? (fun x => x.id == qid) with
  | none =>
    have h1 : (answerQuestion room c qid a1).1 = room := by
      unfold answerQuestion
      rw [hfind]
    rw [h1]
    unfold answerQuestion
    rw [hfind]
  | some q =>
    by_cases hto : q.«to» ≠ c
    · have h1 : (answerQuestion room c qid a1).1 = room := by
        unfold answerQuestion
        rw [hfind]
        dsimp only
        rw [if_pos hto]
      rw [h1]
      unfold answerQuestion
      rw [hfind]
      dsimp only
      rw [if_pos hto]
    · by_cases hans : jsTruthy q.answer = true
      · have h1 : (answerQuestion room c qid a1).1 = room := by
          unfold answerQuestion
          rw [hfind]
          dsimp only
          rw [if_neg hto, if_pos hans]
        rw [h1]
        unfold answerQuestion
        rw [hfind]
        dsimp only
        rw [if_neg hto, if_pos hans]
      · have h2 := hstore q hfind (not_not.mp hto)
          (Bool.not_eq_true _ ▸ (by simpa using hans))
        generalize hr : (answerQuestion room c qid a1).1 = r1 at h2 ⊢
        unfold answerQuestion
        rw [h2]
        dsimp only
        rw [if_neg (by simp [not_not.mp hto])]
        rw [if_pos (by simp [jsTruthy, ha1])]

/-- Witness for C9 (amended): answering q1 in exRoom9 with "yes" and
then calling again with "later" leaves the room exactly as after the
first call, with "yes" stored. -/
theorem answerQuestion_sets_once_witness :
    ("yes" : String) ≠ "" ∧
    answerQuestion (answerQuestion exRoom9 "p2" "q1" "yes").1 "p2" "q1"
        "later" = ((answerQuestion exRoom9 "p2" "q1" "yes").1, []) ∧
    (answerQuestion exRoom9 "p2" "q1" "yes").1.gameState.questions.find?
        (fun x => x.id == "q1") =
      some { id := "q1", «from» := "p1", «to» := "p2",
             question := "where were you", answer := some "yes",
             timestamp := 0 } :=
  ⟨by decide,
   (answerQuestion_sets_once exRoom9 "p2" "q1" "yes" "later" (by decide)).1,
   (answerQuestion_sets_once exRoom9 "p2" "q1" "yes" "later" (by decide)).2
     _ rfl rfl rfl⟩


/-! Timer-system lemmas (for the stale-timer claim). -/

theorem mem_clearT (s : TimerSys) (t t2 : Nat) :
    t2 ∈ (clearT s t).armed ↔ t2 ∈ s.armed ∧ t2 ≠ t := by
  simp [clearT, List.mem_filter]

theorem clearT_nextId (s : TimerSys) (t : Nat) :
    (clearT s t).nextId = s.nextId := rfl

theorem foldl_clearT_nextId :
    ∀ (L : List Nat) (s : TimerSys), (L.foldl clearT s).nextId = s.nextId := by
  intro L
  induction L with
  | nil => intro s; rfl
  | cons x L ih => intro s; rw [List.foldl_cons, ih, clearT_nextId]

theorem mem_foldl_clearT :
    ∀ (L : List Nat) (s : TimerSys) (t2 : Nat),
      t2 ∈ (L.foldl clearT s).armed ↔ t2 ∈ s.armed ∧ t2 ∉ L := by
  intro L
  induction L with
  | nil => intro s t2; simp
  | cons x L ih =>
    intro s t2
    rw [List.foldl_cons, ih, mem_clearT]
    constructor
    · rintro ⟨⟨h1, h2⟩, h3⟩
      exact ⟨h1, by simp [h2, h3]⟩
    · rintro ⟨h1, h2⟩
      simp only [List.mem_cons, not_or] at h2
      exact ⟨⟨h1, h2.1⟩, h2.2⟩

theorem clearedSys_nextId (room : Room) (sys : TimerSys) :
    (clearedSys room sys).nextId = sys.nextId := by
  unfold clearedSys
  rw [foldl_clearT_nextId]
  cases room.timers.phaseTimer <;> rfl

theorem mem_clearedSys (room : Room) (sys : TimerSys) (t2 : Nat) :
    t2 ∈ (clearedSys room sys).armed ↔
      t2 ∈ sys.armed ∧ room.timers.phaseTimer ≠ some t2 ∧
        t2 ∉ room.timers.evidenceTimers := by
  unfold clearedSys
  rw [mem_foldl_clearT]
  cases h : room.timers.phaseTimer with
  | none => simp
  | some tp =>
    rw [mem_clearT]
    constructor
    · rintro ⟨⟨h1, h2⟩, h3⟩
      refine ⟨h1, ?_, h3⟩
      intro hh
      exact h2 (Option.some.inj hh).symm
    · rintro ⟨h1, h2, h3⟩
      refine ⟨⟨h1, ?_⟩, h3⟩
      intro hh
      exact h2 (by rw [hh])

theorem mem_setT (s : TimerSys) (t : Nat) :
    t ∈ (setT s).2.armed ↔ t ∈ s.armed ∨ t = s.nextId := by
  simp [setT]

/-- Full characterization of the evidence-arming loop: it allocates
`evs.length` consecutive fresh ids, arms them all, and pushes them
onto the room's `evidenceTimers`, leaving the phase timer alone. -/
theorem armEvidence_sys :
    ∀ (evs : List Evidence) (room : Room) (sys : TimerSys),
      (armEvidence room sys evs).2.nextId = sys.nextId + evs.length ∧
      (armEvidence room sys evs).2.armed =
        sys.armed ++ List.range' sys.nextId evs.length ∧
      (armEvidence room sys evs).1.timers.evidenceTimers =
        room.timers.evidenceTimers ++ List.range' sys.nextId evs.length ∧
      (armEvidence room sys evs).1.timers.phaseTimer =
        room.timers.phaseTimer := by
  intro evs
  induction evs with
  | nil => intro room sys; exact ⟨rfl, by simp [armEvidence], by simp [armEvidence], rfl⟩
  | cons e evs ih =>
    intro room sys
    have hstep : armEvidence room sys (e :: evs) =
        armEvidence
          { room with
              timers :=
                { room.timers with
                    evidenceTimers :=
                      room.timers.evidenceTimers ++ [sys.nextId] } }
          { armed := sys.armed ++ [sys.nextId], nextId := sys.nextId + 1 }
          evs := rfl
    rw [hstep]
    obtain ⟨h1, h2, h3, h4⟩ := ih
      { room with
          timers :=
            { room.timers with
                evidenceTimers :=
                  room.timers.evidenceTimers ++ [sys.nextId] } }
      { armed := sys.armed ++ [sys.nextId], nextId := sys.nextId + 1 }
    refine ⟨?_, ?_, ?_, ?_⟩
    · rw [h1]
      dsimp
      omega
    · rw [h2]
      dsimp
      rw [List.append_assoc]
      simp [List.range'_succ]
    · rw [h3]
      dsimp
      rw [List.append_assoc]
      simp [List.range'_succ]
    · rw [h4]

/-- The phase-timer arming stage either leaves everything unchanged
(falsy duration) or arms exactly one fresh timer and stores its
handle. -/
theorem armPhaseTimer_cases (room : Room) (d : Option Nat) (sys : TimerSys) :
    armPhaseTimer room d sys = (room, sys) ∨
    armPhaseTimer room d sys =
      ({ room with
          timers := { room.timers with phaseTimer := some sys.nextId } },
       { armed := sys.armed ++ [sys.nextId], nextId := sys.nextId + 1 }) := by
  unfold armPhaseTimer
  split
  · split
    · right
      rfl
    · left
      rfl
  · left
    rfl

/-- The evidence stage either leaves the pair unchanged or runs the
arming loop on some evidence list. -/
theorem armEvidenceStage_cases (p : GamePhase) (rs : Room × TimerSys) :
    armEvidenceStage p rs = rs ∨
    ∃ evs, armEvidenceStage p rs = armEvidence rs.1 rs.2 evs := by
  unfold armEvidenceStage
  split
  · split
    · right
      exact ⟨_, rfl⟩
    · left
      rfl
  · left
    rfl


/-- Combined bound for the two arming stages of `startPhase`: every
timer armed afterwards was either already armed in the cleared system
or is fresh, and the resulting system and room handles are
well-formed. -/
theorem stages_armed_bound (R2 : Room) (d : Option Nat) (p : GamePhase)
    (C : TimerSys) (hR2ev : R2.timers.evidenceTimers = [])
    (hCwf : ∀ t2 ∈ C.armed, t2 < C.nextId)
    (hPh : ∀ t, R2.timers.phaseTimer = some t → t < C.nextId) :
    (∀ t2 ∈ (armEvidenceStage p (armPhaseTimer R2 d C)).2.armed,
      t2 ∈ C.armed ∨ C.nextId ≤ t2) ∧
    (∀ t2 ∈ (armEvidenceStage p (armPhaseTimer R2 d C)).2.armed,
      t2 < (armEvidenceStage p (armPhaseTimer R2 d C)).2.nextId) ∧
    (∀ t, (armEvidenceStage p (armPhaseTimer R2 d C)).1.timers.phaseTimer =
        some t → t < (armEvidenceStage p (armPhaseTimer R2 d C)).2.nextId) ∧
    (∀ t ∈ (armEvidenceStage p (armPhaseTimer R2 d C)).1.timers.evidenceTimers,
      t < (armEvidenceStage p (armPhaseTimer R2 d C)).2.nextId) := by
  rcases armEvidenceStage_cases p (armPhaseTimer R2 d C) with h | ⟨evs, h⟩ <;>
    rw [h] <;>
    rcases armPhaseTimer_cases R2 d C with hap | hap <;> rw [hap]
  · -- no phase timer armed, no evidence armed
    refine ⟨fun t2 ht => Or.inl ht, fun t2 ht => hCwf t2 ht, hPh, ?_⟩
    rw [hR2ev]
    intro t ht
    cases ht
  · -- phase timer armed, no evidence armed
    dsimp only
    refine ⟨?_, ?_, ?_, ?_⟩
    · intro t2 ht
      rcases List.mem_append.mp ht with ht | ht
      · exact Or.inl ht
      · rcases List.mem_singleton.mp ht with rfl
        exact Or.inr (Nat.le_refl _)
    · intro t2 ht
      rcases List.mem_append.mp ht with ht | ht
      · exact Nat.lt_succ_of_lt (hCwf t2 ht)
      · rcases List.mem_singleton.mp ht with rfl
        exact Nat.lt_succ_self _
    · intro t ht
      rcases Option.some.inj ht with rfl
      exact Nat.lt_succ_self _
    · intro t ht
      rw [hR2ev] at ht
      cases ht
  · -- no phase timer armed, evidence armed
    obtain ⟨hN, hArm, hEv, hPh2⟩ := armEvidence_sys evs R2 C
    dsimp only
    refine ⟨?_, ?_, ?_, ?_⟩
    · intro t2 ht
      rw [hArm] at ht
      rcases List.mem_append.mp ht with ht | ht
      · exact Or.inl ht
      · exact Or.inr (List.mem_range'_1.mp ht).1
    · intro t2 ht
      rw [hArm] at ht
      rw [hN]
      rcases List.mem_append.mp ht with ht | ht
      · have := hCwf t2 ht
        omega
      · have := (List.mem_range'_1.mp ht).2
        omega
    · intro t ht
      rw [hPh2] at ht
      rw [hN]
      have := hPh t ht
      omega
    · intro t ht
      rw [hEv, hR2ev] at ht
      rw [hN]
      simp only [List.nil_append] at ht
      have := (List.mem_range'_1.mp ht).2
      omega
  · -- phase timer armed and evidence armed
    obtain ⟨hN, hArm, hEv, hPh2⟩ := armEvidence_sys evs
      { R2 with timers := { R2.timers with phaseTimer := some C.nextId } }
      { armed := C.armed ++ [C.nextId], nextId := C.nextId + 1 }
    dsimp only at hN hArm hEv hPh2
    refine ⟨?_, ?_, ?_, ?_⟩
    · intro t2 ht
      rw [hArm] at ht
      rcases List.mem_append.mp ht with ht | ht
      · rcases List.mem_append.mp ht with ht | ht
        · exact Or.inl ht
        · rcases List.mem_singleton.mp ht with rfl
          exact Or.inr (Nat.le_refl _)
      · right
        have := (List.mem_range'_1.mp ht).1
        omega
    · intro t2 ht
      rw [hArm] at ht
      rw [hN]
      rcases List.mem_append.mp ht with ht | ht
      · rcases List.mem_append.mp ht with ht | ht
        · have := hCwf t2 ht
          omega
        · rcases List.mem_singleton.mp ht with rfl
          omega
      · have := (List.mem_range'_1.mp ht).2
        omega
    · intro t ht
      rw [hPh2] at ht
      rcases Option.some.inj ht with rfl
      rw [hN]
      omega
    · intro t ht
      rw [hEv] at ht
      rw [hN]
      rw [hR2ev] at ht
      simp only [List.nil_append] at ht
      have := (List.mem_range'_1.mp ht).2
      omega

/-- C4: `startPhase` always cancels the room's previously armed phase
timer and every previously armed evidence timer before arming fresh
ones: afterwards no timer handle the room held before is armed (so a
stale callback can never fire once the new phase has begun), and the
timer state stays well-formed, so the invariant is preserved along
every phase transition. -/
theorem startPhase_cancels_stale_timers :
    ∀ (room : Room) (p : GamePhase) (d : Option Nat) (now : Nat)
      (sys : TimerSys),
      TimerWF room sys →
      (∀ t, room.timers.phaseTimer = some t →
        t ∉ (startPhase room p d now sys).sys.armed) ∧
      (∀ t ∈ room.timers.evidenceTimers,
        t ∉ (startPhase room p d now sys).sys.armed) ∧
      TimerWF (startPhase room p d now sys).room
        (startPhase room p d now sys).sys := by
  intro room p d now sys hWF
  obtain ⟨hA, hP, hE⟩ := hWF
  have hCN : (clearedSys room sys).nextId = sys.nextId := clearedSys_nextId room sys
  have hCwf : ∀ t2 ∈ (clearedSys room sys).armed,
      t2 < (clearedSys room sys).nextId := by
    intro t2 ht
    rw [hCN]
    exact hA t2 ((mem_clearedSys room sys t2).mp ht).1
  obtain ⟨s1, s2, s3, s4⟩ := stages_armed_bound
    { room with
        gameState :=
          { room.gameState with phase := p, phaseStartTime := some now },
        timers := { room.timers with evidenceTimers := [] } }
    d p (clearedSys room sys) rfl hCwf
    (fun t ht => by rw [hCN]; exact hP t ht)
  refine ⟨?_, ?_, ?_, ?_, ?_⟩
  · intro t ht hmem
    rcases s1 t hmem with hmem2 | hge
    · exact ((mem_clearedSys room sys t).mp hmem2).2.1 ht
    · rw [hCN] at hge
      exact absurd (hP t ht) (by omega)
  · intro t ht hmem
    rcases s1 t hmem with hmem2 | hge
    · exact ((mem_clearedSys room sys t).mp hmem2).2.2 ht
    · rw [hCN] at hge
      exact absurd (hE t ht) (by omega)
  · exact s2
  · exact s3
  · exact s4

/-- Witness for C4: in exRoomW (phase timer 3, evidence timers 4 and
5 armed), starting ACCUSATIONS disarms all three stale handles. -/
theorem startPhase_cancels_stale_timers_witness :
    TimerWF exRoomW exSysW ∧
    3 ∉ (startPhase exRoomW GamePhase.ACCUSATIONS (some 20000) 7
        exSysW).sys.armed ∧
    4 ∉ (startPhase exRoomW GamePhase.ACCUSATIONS (some 20000) 7
        exSysW).sys.armed := by
  have hWF : TimerWF exRoomW exSysW := by
    refine ⟨?_, ?_, ?_⟩
    · intro t ht
      fin_cases ht <;> decide
    · intro t ht
      have h2 : some 3 = some t := ht
      rcases Option.some.inj h2 with rfl
      decide
    · intro t ht
      fin_cases ht <;> decide
  refine ⟨hWF, ?_, ?_⟩
  · exact (startPhase_cancels_stale_timers exRoomW GamePhase.ACCUSATIONS
      (some 20000) 7 exSysW hWF).1 3 rfl
  · exact (startPhase_cancels_stale_timers exRoomW GamePhase.ACCUSATIONS
      (some 20000) 7 exSysW hWF).2.1 4 (by decide)


/-- Each `advancePhase` step moves the phase one step along the fixed
linear order and invokes the Scoring Engine exactly when leaving
ACCUSATIONS. -/
theorem advance_phase_scored (room : Room) (now : Nat) (sys : TimerSys) :
    (advancePhase room now sys).room.gameState.phase =
      jsNextPhase room.gameState.phase ∧
    (advancePhase room now sys).scored =
      (room.gameState.phase == GamePhase.ACCUSATIONS) := by
  refine ⟨?_, ?_⟩ <;> unfold advancePhase <;>
    cases hp : room.gameState.phase <;>
    simp +decide [jsIndexOf, phaseSequence, jsNextPhase, PHASE_DURATIONS,
      startPhase_gameState, hp]

theorem roundScoredCount_succ (room : Room) (sys : TimerSys) (now n : Nat) :
    roundScoredCount room sys now (n + 1) =
      (if (advancePhase room now sys).scored then 1 else 0) +
        roundScoredCount (advancePhase room now sys).room
          (advancePhase room now sys).sys now n := rfl

/-- C3: `advancePhase` follows the fixed linear order
SETUP → ALIBI_CONSTRUCTION → INTERROGATION → ACCUSATIONS → RESULTS
with the fixed durations; when the phase about to be entered is
RESULTS it first invokes `calculateResults`; after RESULTS it wraps
to WAITING with `guiltyPlayerId` cleared; and over the five steps of
a round starting at SETUP the Scoring Engine runs exactly once. -/
theorem advancePhase_spec :
    ∀ (room : Room) (now : Nat) (sys : TimerSys),
      (room.gameState.phase = GamePhase.WAITING →
        advancePhase room now sys =
          { room := room, sys := sys, msgs := [], scored := false }) ∧
      (room.gameState.phase = GamePhase.SETUP →
        advancePhase room now sys =
          startPhase room GamePhase.ALIBI_CONSTRUCTION (some 30000) now sys) ∧
      (room.gameState.phase = GamePhase.ALIBI_CONSTRUCTION →
        advancePhase room now sys =
          startPhase room GamePhase.INTERROGATION (some 30000) now sys) ∧
      (room.gameState.phase = GamePhase.INTERROGATION →
        advancePhase room now sys =
          startPhase room GamePhase.ACCUSATIONS (some 20000) now sys) ∧
      (room.gameState.phase = GamePhase.ACCUSATIONS →
        advancePhase room now sys =
          { startPhase (calculateResults room) GamePhase.RESULTS
              (some 10000) now sys with scored := true }) ∧
      (room.gameState.phase = GamePhase.RESULTS →
        advancePhase room now sys =
          { room :=
              { room with
                  gameState :=
                    { room.gameState with
                        phase := GamePhase.WAITING,
                        guiltyPlayerId := none } },
            sys := sys,
            msgs := broadcastPhaseUpdate
              { room with
                  gameState :=
                    { room.gameState with
                        phase := GamePhase.WAITING,
                        guiltyPlayerId := none } },
            scored := false }) ∧
      (room.gameState.phase = GamePhase.SETUP →
        roundScoredCount room sys now 5 = 1) := by
  intro room now sys
  refine ⟨?_, ?_, ?_, ?_, ?_, ?_, ?_⟩
  · intro h
    unfold advancePhase
    rw [h]
    rfl
  · intro h
    unfold advancePhase
    rw [h]
    rfl
  · intro h
    unfold advancePhase
    rw [h]
    rfl
  · intro h
    unfold advancePhase
    rw [h]
    rfl
  · intro h
    unfold advancePhase
    rw [h]
    rfl
  · intro h
    unfold advancePhase
    rw [h]
    rfl
  · intro h
    obtain ⟨p1, s1⟩ := advance_phase_scored room now sys
    rw [h] at p1 s1
    obtain ⟨p2, s2⟩ := advance_phase_scored (advancePhase room now sys).room
      now (advancePhase room now sys).sys
    rw [p1] at p2 s2
    obtain ⟨p3, s3⟩ := advance_phase_scored
      (advancePhase (advancePhase room now sys).room now
        (advancePhase room now sys).sys).room now
      (advancePhase (advancePhase room now sys).room now
        (advancePhase room now sys).sys).sys
    rw [p2] at p3 s3
    obtain ⟨p4, s4⟩ := advance_phase_scored
      (advancePhase (advancePhase (advancePhase room now sys).room now
        (advancePhase room now sys).sys).room now
        (advancePhase (advancePhase room now sys).room now
          (advancePhase room now sys).sys).sys).room now
      (advancePhase (advancePhase (advancePhase room now sys).room now
        (advancePhase room now sys).sys).room now
        (advancePhase (advancePhase room now sys).room now
          (advancePhase room now sys).sys).sys).sys
    rw [p3] at p4 s4
    obtain ⟨p5, s5⟩ := advance_phase_scored
      (advancePhase (advancePhase (advancePhase (advancePhase room now
        sys).room now (advancePhase room now sys).sys).room now
        (advancePhase (advancePhase room now sys).room now
          (advancePhase room now sys).sys).sys).room now
        (advancePhase (advancePhase (advancePhase room now sys).room now
          (advancePhase room now sys).sys).room now
          (advancePhase (advancePhase room now sys).room now
            (advancePhase room now sys).sys).sys).sys).room now
      (advancePhase (advancePhase (advancePhase (advancePhase room now
        sys).room now (advancePhase room now sys).sys).room now
        (advancePhase (advancePhase room now sys).room now
          (advancePhase room now sys).sys).sys).room now
        (advancePhase (advancePhase (advancePhase room now sys).room now
          (advancePhase room now sys).sys).room now
          (advancePhase (advancePhase room now sys).room now
            (advancePhase room now sys).sys).sys).sys).sys
    rw [p4] at p5 s5
    simp only [jsNextPhase] at s1 s2 s3 s4 s5
    rw [show (5 : Nat) = 4 + 1 from rfl, roundScoredCount_succ,
      show (4 : Nat) = 3 + 1 from rfl, roundScoredCount_succ,
      show (3 : Nat) = 2 + 1 from rfl, roundScoredCount_succ,
      show (2 : Nat) = 1 + 1 from rfl, roundScoredCount_succ,
      show (1 : Nat) = 0 + 1 from rfl, roundScoredCount_succ]
    rw [s1, s2, s3, s4, s5]
    simp only [roundScoredCount]
    decide

/-- Witness for C3: in the concrete four-player SETUP room, the round
advances SETUP → ALIBI_CONSTRUCTION and the Scoring Engine runs
exactly once over the five steps of the round. -/
theorem advancePhase_spec_witness :
    advancePhase exRoomSetup 9 sys0 =
      startPhase exRoomSetup GamePhase.ALIBI_CONSTRUCTION (some 30000) 9
        sys0 ∧
    roundScoredCount exRoomSetup sys0 9 5 = 1 :=
  ⟨((advancePhase_spec exRoomSetup 9 sys0).2.1) rfl,
   ((advancePhase_spec exRoomSetup 9 sys0).2.2.2.2.2.2) rfl⟩


/-! Player-list preservation lemmas for the per-operation invariant. -/

theorem submitAlibi_players (room : Room) (pid text : String) :
    (submitAlibi room pid text).1.players = room.players := by
  unfold submitAlibi
  split <;> rfl

theorem askQuestion_players (room : Room) (pid toId text : String)
    (now rnd : Nat) :
    (askQuestion room pid toId text now rnd).1.players = room.players := by
  unfold askQuestion
  split
  · rfl
  · split <;> rfl

theorem answerQuestion_players (room : Room) (c qid a : String) :
    (answerQuestion room c qid a).1.players = room.players := by
  unfold answerQuestion
  split
  · rfl
  · split
    · rfl
    · split <;> rfl

theorem submitVote_players (room : Room) (pid s : String) (conf : Nat) :
    (submitVote room pid s conf).1.players = room.players := by
  unfold submitVote
  split <;> rfl

theorem startGame_players (room : Room) (ci gi now : Nat) (sys : TimerSys) :
    (startGame room ci gi now sys).room.players = room.players := by
  unfold startGame
  split
  · rfl
  · dsimp only
    rw [startPhase_players]

theorem advancePhase_players_cases (room : Room) (now : Nat)
    (sys : TimerSys) :
    (advancePhase room now sys).room.players = room.players ∨
    (advancePhase room now sys).room.players =
      (calculateResults room).players := by
  unfold advancePhase
  split
  · left
    rfl
  · dsimp only
    split
    · split
      · right
        rw [startPhase_players]
      · left
        rw [startPhase_players]
    · split
      · right
        rfl
      · left
        rfl

/-- `calculateResults` only adds points to scores: it never sets a
player's `isGuilty` flag. -/
theorem calculateResults_noguilty (room : Room) (h : NoGuiltyFlag room) :
    NoGuiltyFlag (calculateResults room) := by
  have hstep : ∀ (g : Option String)
      (st : List (String × Player) × List (String × Vote) ×
        List (String × Nat) × Nat) (en : String × Vote),
      (∀ e ∈ st.1, e.2.isGuilty = false) →
      ∀ e ∈ (voteStep g st en).1, e.2.isGuilty = false := by
    intro g st en hst
    unfold voteStep
    dsimp only
    split
    · exact hst
    case h_2 p hp =>
      split
      · exact @forall_snd_mapSet _ (fun (a : Player) => a.isGuilty = false) _ _ _ hst
          (hst _ (mapGet_eq_some_mem hp))
      · exact hst
  have hfold : ∀ (g : Option String) (vs : List (String × Vote))
      (st : List (String × Player) × List (String × Vote) ×
        List (String × Nat) × Nat),
      (∀ e ∈ st.1, e.2.isGuilty = false) →
      ∀ e ∈ (vs.foldl (voteStep g) st).1, e.2.isGuilty = false := by
    intro g vs
    induction vs with
    | nil => intro st hst; exact hst
    | cons en vs ih =>
      intro st hst
      rw [List.foldl_cons]
      exact ih _ (hstep g st en hst)
  intro e he
  unfold calculateResults at he
  dsimp only at he
  revert he
  have hf := hfold room.gameState.guiltyPlayerId room.gameState.votes
    (room.players, [], [], 0) h
  split
  · exact fun he => hf e he
  · split
    · exact fun he => hf e he
    case h_2 gid gp hgp =>
      intro he
      refine @forall_snd_mapSet _ (fun (a : Player) => a.isGuilty = false)
        _ _ _ hf ?_ e he
      exact hf _ (mapGet_eq_some_mem hgp)

/-- C10: the server never sets any player record's `isGuilty` field:
`joinRoom` creates players with `isGuilty := false` and every server
operation preserves the all-false invariant, so the shared `players`
array in every broadcast snapshot reports `isGuilty = false` for
every player — a recipient's guilt is conveyed only by the
snapshot's top-level `isGuilty` flag. -/
theorem server_never_marks_guilty :
    ∀ (room : Room) (sys : TimerSys) (op : ServerOp),
      NoGuiltyFlag room →
      NoGuiltyFlag (applyOp room sys op).1 ∧
      (∀ pid, ∀ pl ∈ (getPublicGameState (applyOp room sys op).1 pid).players,
        pl.isGuilty = false) := by
  intro room sys op h
  have hmain : NoGuiltyFlag (applyOp room sys op).1 := by
    cases op with
    | join pid name =>
      show NoGuiltyFlag (joinRoom room pid name).1
      unfold joinRoom
      split
      · exact h
      · split
        · exact h
        · dsimp only
          exact @forall_snd_mapSet _ (fun (a : Player) => a.isGuilty = false)
            _ _ _ h rfl
    | start ci gi now =>
      intro e he
      rw [show (applyOp room sys (ServerOp.start ci gi now)).1 =
        (startGame room ci gi now sys).room from rfl,
        startGame_players] at he
      exact h e he
    | advance now =>
      intro e he
      rcases advancePhase_players_cases room now sys with hpl | hpl
      · rw [show (applyOp room sys (ServerOp.advance now)).1 =
          (advancePhase room now sys).room from rfl, hpl] at he
        exact h e he
      · rw [show (applyOp room sys (ServerOp.advance now)).1 =
          (advancePhase room now sys).room from rfl, hpl] at he
        exact calculateResults_noguilty room h e he
    | beginPhase p d now =>
      intro e he
      rw [show (applyOp room sys (ServerOp.beginPhase p d now)).1 =
        (startPhase room p d now sys).room from rfl,
        startPhase_players] at he
      exact h e he
    | alibi pid text =>
      intro e he
      rw [show (applyOp room sys (ServerOp.alibi pid text)).1 =
        (submitAlibi room pid text).1 from rfl,
        submitAlibi_players] at he
      exact h e he
    | ask pid toId text now rnd =>
      intro e he
      rw [show (applyOp room sys (ServerOp.ask pid toId text now rnd)).1 =
        (askQuestion room pid toId text now rnd).1 from rfl,
        askQuestion_players] at he
      exact h e he
    | answer pid qid ans =>
      intro e he
      rw [show (applyOp room sys (ServerOp.answer pid qid ans)).1 =
        (answerQuestion room pid qid ans).1 from rfl,
        answerQuestion_players] at he
      exact h e he
    | vote pid suspectId conf =>
      intro e he
      rw [show (applyOp room sys (ServerOp.vote pid suspectId conf)).1 =
        (submitVote room pid suspectId conf).1 from rfl,
        submitVote_players] at he
      exact h e he
    | score => exact calculateResults_noguilty room h
    | leave pid =>
      intro e he
      exact h e (List.mem_of_mem_filter he)
  refine ⟨hmain, ?_⟩
  intro pid pl hpl
  rcases List.mem_map.mp hpl with ⟨e, he, rfl⟩
  exact hmain e he

/-- Witness for C10: the all-false invariant holds in the four-player
room and survives a startGame (which sets guiltyPlayerId but no
player flag); the broadcast player list shows isGuilty false for
everyone. -/
theorem server_never_marks_guilty_witness :
    NoGuiltyFlag exRoom4 ∧
    NoGuiltyFlag (applyOp exRoom4 sys0 (ServerOp.start 0 0 5)).1 ∧
    (∀ pl ∈ (getPublicGameState
        (applyOp exRoom4 sys0 (ServerOp.start 0 0 5)).1 "p1").players,
      pl.isGuilty = false) := by
  have h : NoGuiltyFlag exRoom4 := by
    intro e he
    fin_cases he <;> rfl
  exact ⟨h, (server_never_marks_guilty exRoom4 sys0 (ServerOp.start 0 0 5) h).1,
    (server_never_marks_guilty exRoom4 sys0 (ServerOp.start 0 0 5) h).2 "p1"⟩


/-! Characterization of the scoring fold (for C2). -/

theorem voteStep_keys (g : Option String)
    (st : List (String × Player) × List (String × Vote) ×
      List (String × Nat) × Nat) (en : String × Vote) :
    ((voteStep g st en).1).map Prod.fst = st.1.map Prod.fst := by
  unfold voteStep
  dsimp only
  split
  · rfl
  case h_2 p hp =>
    split
    · exact keys_mapSet_of_isSome _ _ _ (by rw [hp]; rfl)
    · rfl

theorem foldVote_keys (g : Option String) :
    ∀ (vs : List (String × Vote))
      (st : List (String × Player) × List (String × Vote) ×
        List (String × Nat) × Nat),
      ((vs.foldl (voteStep g) st).1).map Prod.fst = st.1.map Prod.fst := by
  intro vs
  induction vs with
  | nil => intro st; rfl
  | cons en vs ih =>
    intro st
    rw [List.foldl_cons, ih, voteStep_keys]

theorem voteStep_get_other (g : Option String)
    (st : List (String × Player) × List (String × Vote) ×
      List (String × Nat) × Nat) (en : String × Vote) (pid : String)
    (h : en.1 ≠ pid) :
    mapGet (voteStep g st en).1 pid = mapGet st.1 pid := by
  unfold voteStep
  dsimp only
  split
  · rfl
  · split
    · exact mapGet_mapSet_ne _ _ _ _ (Ne.symm h)
    · rfl

theorem foldVote_get_other (g : Option String) :
    ∀ (vs : List (String × Vote))
      (st : List (String × Player) × List (String × Vote) ×
        List (String × Nat) × Nat) (pid : String),
      pid ∉ vs.map Prod.fst →
      mapGet (vs.foldl (voteStep g) st).1 pid = mapGet st.1 pid := by
  intro vs
  induction vs with
  | nil => intro st pid _; rfl
  | cons en vs ih =>
    intro st pid h
    simp only [List.map_cons, List.mem_cons, not_or] at h
    rw [List.foldl_cons, ih _ _ h.2, voteStep_get_other]
    exact fun hh => h.1 hh.symm

theorem voteStep_get_self (g : Option String)
    (st : List (String × Player) × List (String × Vote) ×
      List (String × Nat) × Nat) (en : String × Vote) :
    mapGet (voteStep g st en).1 en.1 =
      (mapGet st.1 en.1).map (applyVote g en.2) := by
  unfold voteStep
  dsimp only
  split
  case h_1 hp => rw [hp]; rfl
  case h_2 p hp =>
    split
    case isTrue hc =>
      rw [mapGet_mapSet_self, hp]
      simp [applyVote, hc]
    case isFalse hc =>
      rw [hp]
      simp [applyVote, hc]

theorem foldVote_get_voter (g : Option String) :
    ∀ (vs : List (String × Vote))
      (st : List (String × Player) × List (String × Vote) ×
        List (String × Nat) × Nat) (pid : String) (v : Vote),
      (vs.map Prod.fst).Nodup → (pid, v) ∈ vs →
      mapGet (vs.foldl (voteStep g) st).1 pid =
        (mapGet st.1 pid).map (applyVote g v) := by
  intro vs
  induction vs with
  | nil => intro st pid v _ hmem; cases hmem
  | cons en vs ih =>
    intro st pid v hnd hmem
    have hnd2 : en.1 ∉ vs.map Prod.fst ∧ (vs.map Prod.fst).Nodup := by
      rw [List.map_cons, List.nodup_cons] at hnd
      exact hnd
    rcases List.mem_cons.mp hmem with heq | hmem2
    · subst heq
      rw [List.foldl_cons, foldVote_get_other g vs _ pid hnd2.1]
      exact voteStep_get_self g st (pid, v)
    · have hin : pid ∈ vs.map Prod.fst :=
        List.mem_map.mpr ⟨(pid, v), hmem2, rfl⟩
      have hne : en.1 ≠ pid := fun hh => hnd2.1 (hh ▸ hin)
      rw [List.foldl_cons, ih _ _ _ hnd2.2 hmem2, voteStep_get_other _ _ _ _ hne]

theorem voteStep_fooled (g : Option String)
    (st : List (String × Player) × List (String × Vote) ×
      List (String × Nat) × Nat) (en : String × Vote) :
    (voteStep g st en).2.2.2 =
      st.2.2.2 + (if (mapGet st.1 en.1).isSome ∧ some en.2.suspectId ≠ g
        then 1 else 0) := by
  unfold voteStep
  dsimp only
  split
  case h_1 hp => simp [hp]
  case h_2 p hp =>
    split
    case isTrue hc => simp [hp, hc]
    case isFalse hc => simp [hp, hc]

theorem foldVote_fooled (g : Option String) :
    ∀ (vs : List (String × Vote))
      (st : List (String × Player) × List (String × Vote) ×
        List (String × Nat) × Nat),
      (vs.foldl (voteStep g) st).2.2.2 =
        st.2.2.2 + (vs.filter (fun e => (mapGet st.1 e.1).isSome &&
          !(decide (some e.2.suspectId = g)))).length := by
  intro vs
  induction vs with
  | nil => intro st; simp
  | cons en vs ih =>
    intro st
    rw [List.foldl_cons, ih]
    have hkeys : ∀ k, (mapGet (voteStep g st en).1 k).isSome =
        (mapGet st.1 k).isSome := by
      intro k
      by_cases hk : k ∈ st.1.map Prod.fst
      · have hA := (mapGet_isSome_iff ((voteStep g st en).1) k).mpr
          (by rwa [voteStep_keys])
        have hB := (mapGet_isSome_iff st.1 k).mpr hk
        rw [hA, hB]
      · have hA : ¬ ((mapGet ((voteStep g st en).1) k).isSome = true) :=
          fun hh => hk (by
            have := (mapGet_isSome_iff _ k).mp hh
            rwa [voteStep_keys] at this)
        have hB : ¬ ((mapGet st.1 k).isSome = true) :=
          fun hh => hk ((mapGet_isSome_iff _ k).mp hh)
        rw [Bool.not_eq_true] at hA hB
        rw [hA, hB]
    have hcong : (vs.filter (fun e => (mapGet (voteStep g st en).1 e.1).isSome &&
        !(decide (some e.2.suspectId = g)))) =
        (vs.filter (fun e => (mapGet st.1 e.1).isSome &&
          !(decide (some e.2.suspectId = g)))) := by
      apply List.filter_congr
      intro e _
      rw [hkeys]
    rw [hcong, voteStep_fooled]
    by_cases hsome : (mapGet st.1 en.1).isSome = true
    · by_cases hsus : some en.2.suspectId = g
      · simp [List.filter_cons, hsome, hsus]
      · simp only [List.filter_cons, hsome, hsus]
        simp [hsus]
        omega
    · simp only [Bool.not_eq_true] at hsome
      simp [List.filter_cons, hsome]

theorem applyVote_eq (g : Option String) (v : Vote) (p : Player) :
    applyVote g v p =
      { p with score := p.score +
        (if some v.suspectId = g then 100 * v.confidence else 0) } := by
  unfold applyVote
  split
  case isTrue hc => rfl
  case isFalse hc => simp

/-- C2: when the Scoring Engine runs, every player still in the room
who cast a vote gains exactly `100 * confidence` if their suspect is
the guilty player (and otherwise counts toward `fooledCount`), the
guilty player additionally gains exactly `150 * fooledCount`, and a
player who cast no vote gains nothing and does not contribute to
`fooledCount` (both facts packaged in the per-player score equation
below via `specVoteGain`, `specFooledCount` and `specGuiltyBonus`,
which transcribe the claim). -/
theorem calculateResults_scoring :
    ∀ (room : Room),
      (room.gameState.votes.map Prod.fst).Nodup →
      ∀ pid p, mapGet room.players pid = some p →
        mapGet (calculateResults room).players pid =
          some { p with score := p.score + specVoteGain room pid +
            specGuiltyBonus room pid } := by
  intro room hnd pid p hp
  have hfooled : (room.gameState.votes.foldl
      (voteStep room.gameState.guiltyPlayerId)
      (room.players, [], [], 0)).2.2.2 = specFooledCount room := by
    rw [foldVote_fooled]
    simp [specFooledCount]
  have hafter : mapGet (room.gameState.votes.foldl
      (voteStep room.gameState.guiltyPlayerId)
      (room.players, [], [], 0)).1 pid =
      some { p with score := p.score + specVoteGain room pid } := by
    cases hv : mapGet room.gameState.votes pid with
    | none =>
      rw [foldVote_get_other room.gameState.guiltyPlayerId _ _ pid
        ((mapGet_eq_none_iff _ _).mp hv)]
      show mapGet room.players pid = _
      rw [hp]
      simp [specVoteGain, hv]
    | some v =>
      rw [foldVote_get_voter room.gameState.guiltyPlayerId _ _ pid v hnd
        (mapGet_eq_some_mem hv)]
      show (mapGet room.players pid).map _ = _
      rw [hp, Option.map_some', applyVote_eq]
      simp [specVoteGain, hv]
  unfold calculateResults
  dsimp only
  split
  case h_1 hG =>
    dsimp only
    rw [hafter]
    simp [specGuiltyBonus, hG]
  case h_2 gid hG =>
    split
    case h_1 hgid =>
      have hne : pid ≠ gid := by
        intro hh
        rw [← hh, hafter] at hgid
        cases hgid
      dsimp only
      rw [hafter]
      simp [specGuiltyBonus, hG, hne]
    case h_2 gp hgid =>
      by_cases hpg : pid = gid
      · subst hpg
        dsimp only
        rw [mapGet_mapSet_self]
        rw [hafter] at hgid
        rcases Option.some.inj hgid with rfl
        rw [hfooled,
          show specGuiltyBonus room pid = 150 * specFooledCount room from
            by simp [specGuiltyBonus, hG]]
        dsimp only
        rw [show p.score + specVoteGain room pid +
            specFooledCount room * 150 =
            p.score + specVoteGain room pid +
              150 * specFooledCount room from by omega]
      · dsimp only
        rw [mapGet_mapSet_ne _ _ _ _ hpg, hafter]
        simp [specGuiltyBonus, hG, hpg]

/-- Witness for C2: in exRoomVotes (guilty p3; p1 votes p3 with
confidence 2, p2 votes p1, p4 abstains) the scoring run gives p1
exactly 200 points, leaves p2 and p4 at 0, and gives p3 exactly
150 * 1 for the single fooled voter. -/
theorem calculateResults_scoring_witness :
    (exRoomVotes.gameState.votes.map Prod.fst).Nodup ∧
    mapGet (calculateResults exRoomVotes).players "p1" =
      some { mkP "p1" "Alice" with score := 0 + 200 + 0 } ∧
    mapGet (calculateResults exRoomVotes).players "p2" =
      some { mkP "p2" "Bob" with score := 0 + 0 + 0 } ∧
    mapGet (calculateResults exRoomVotes).players "p3" =
      some { mkP "p3" "Cara" with score := 0 + 0 + 150 * 1 } ∧
    mapGet (calculateResults exRoomVotes).players "p4" =
      some { mkP "p4" "Dan" with score := 0 + 0 + 0 } := by
  refine ⟨by decide, ?_, ?_, ?_, ?_⟩
  · exact calculateResults_scoring exRoomVotes (by decide) "p1"
      (mkP "p1" "Alice") rfl
  · exact calculateResults_scoring exRoomVotes (by decide) "p2"
      (mkP "p2" "Bob") rfl
  · exact calculateResults_scoring exRoomVotes (by decide) "p3"
      (mkP "p3" "Cara") rfl
  · exact calculateResults_scoring exRoomVotes (by decide) "p4"
      (mkP "p4" "Dan") rfl

end Alibi
